import Mathlib

/-! # consul-terraform-sync: watch-source configuration and root-module synthesis

A shallow embedding of `config/monitor_consul_kv.go` and
`templates/tftmpl/root.go`, followed by the properties proved about them.

Conventions of the embedding:

* a Go pointer `*T` is an `Option T` (`none` is the nil pointer); a deep copy of
  a value is the value itself;
* a method that mutates its receiver in place returns the new receiver;
* a Go `error` result is an `Option Error` (`none` is the nil error).
-/

namespace Config

/-- The name of this kind of monitor (`consulKVMonitorType`). -/
def consulKVMonitorType : String := "consul-kv"

/-- The struct `ConsulKVMonitorConfig`: five optional scalars. -/
structure ConsulKVMonitorConfig where
  Path : Option String
  SourceIncludesVar : Option Bool
  Recurse : Option Bool
  Datacenter : Option String
  Namespace : Option String
deriving DecidableEq, Repr

/-- A value of the interface `MonitorConfig`: the nil interface, a
`*ConsulKVMonitorConfig` (possibly a nil pointer), or a pointer to a
configuration of another concrete kind `κ` (possibly nil). -/
inductive MonitorConfig (κ : Type) where
  | nil : MonitorConfig κ
  | consulKV (c : Option ConsulKVMonitorConfig) : MonitorConfig κ
  | other (o : Option κ) : MonitorConfig κ
deriving DecidableEq, Repr

/-- Modelled from the spec: `StringCopy` is not among the sources. A copy of an
optional string is absent when the original is absent and otherwise holds the
same string. -/
def StringCopy (s : Option String) : Option String :=
  match s with
  | none => none
  | some v => some v

/-- Modelled from the spec: `BoolCopy` is not among the sources. A copy of an
optional boolean is absent when the original is absent and otherwise holds the
same boolean. -/
def BoolCopy (b : Option Bool) : Option Bool :=
  match b with
  | none => none
  | some v => some v

/-- Modelled from the spec: the helper `String(s)` is not among the sources; it
returns a pointer to the given string (a field that is set). -/
def StringPtr (s : String) : Option String := some s

/-- Modelled from the spec: the helper `Bool(b)` is not among the sources; it
returns a pointer to the given boolean (a field that is set). -/
def BoolPtr (b : Bool) : Option Bool := some b

/-- Modelled from the spec: `isConditionNil` is not among the sources. An
interface value counts as absent when it is the nil interface or holds a nil
pointer of its concrete kind. -/
def isConditionNil {κ : Type} (o : MonitorConfig κ) : Bool :=
  match o with
  | .nil => true
  | .consulKV none => true
  | .consulKV (some _) => false
  | .other none => true
  | .other (some _) => false

/-- `(*ConsulKVMonitorConfig).Copy`: nil for the nil pointer, otherwise a fresh
struct whose five fields are copies of the receiver's. -/
def ConsulKVMonitorConfig.Copy {κ : Type} (c : Option ConsulKVMonitorConfig) :
    MonitorConfig κ :=
  match c with
  | none => .nil
  | some c =>
    .consulKV (some
      { Path := StringCopy c.Path
        Recurse := BoolCopy c.Recurse
        SourceIncludesVar := BoolCopy c.SourceIncludesVar
        Datacenter := StringCopy c.Datacenter
        Namespace := StringCopy c.Namespace })

/-- The method `Copy` called through the interface. For the other kinds it is
modelled from the spec: a deep copy of a present configuration is the same
value, and copying an absent one gives the absent interface value. -/
def MonitorConfig.Copy {κ : Type} (o : MonitorConfig κ) : MonitorConfig κ :=
  match o with
  | .nil => .nil
  | .consulKV c => ConsulKVMonitorConfig.Copy c
  | .other none => .nil
  | .other (some k) => .other (some k)

/-- The override step of `Merge` (lines 57 to 77): every field set on `o2`
replaces the field of `r2`. -/
def mergeFields (r2 o2 : ConsulKVMonitorConfig) : ConsulKVMonitorConfig :=
  let r2 := if o2.Path ≠ none then { r2 with Path := StringCopy o2.Path } else r2
  let r2 := if o2.SourceIncludesVar ≠ none then
    { r2 with SourceIncludesVar := BoolCopy o2.SourceIncludesVar } else r2
  let r2 := if o2.Recurse ≠ none then { r2 with Recurse := BoolCopy o2.Recurse } else r2
  let r2 := if o2.Datacenter ≠ none then
    { r2 with Datacenter := StringCopy o2.Datacenter } else r2
  let r2 := if o2.Namespace ≠ none then
    { r2 with Namespace := StringCopy o2.Namespace } else r2
  r2

/-- `(*ConsulKVMonitorConfig).Merge`. -/
def ConsulKVMonitorConfig.Merge {κ : Type} (c : Option ConsulKVMonitorConfig)
    (o : MonitorConfig κ) : MonitorConfig κ :=
  match c with
  | none =>
    if isConditionNil o then .nil else o.Copy
  | some c =>
    if isConditionNil o then ConsulKVMonitorConfig.Copy (some c)
    else
      let r : MonitorConfig κ := ConsulKVMonitorConfig.Copy (some c)
      match o with
      | .consulKV (some o2) =>
        match r with
        | .consulKV (some r2) => .consulKV (some (mergeFields r2 o2))
        | _ => r
      | _ => r

/-- `(*ConsulKVMonitorConfig).Finalize`: the receiver after the call. The
argument is ignored, as in the source. -/
def ConsulKVMonitorConfig.Finalize (c : Option ConsulKVMonitorConfig)
    (_extraContext : List String) : Option ConsulKVMonitorConfig :=
  match c with
  | none => none
  | some c =>
    let c := if c.Path = none then { c with Path := StringPtr "" } else c
    let c := if c.SourceIncludesVar = none then
      { c with SourceIncludesVar := BoolPtr false } else c
    let c := if c.Recurse = none then { c with Recurse := BoolPtr false } else c
    let c := if c.Datacenter = none then { c with Datacenter := StringPtr "" } else c
    let c := if c.Namespace = none then { c with Namespace := StringPtr "" } else c
    some c

/-- A Go error, carried as its message. -/
abbrev Error := String

/-- `(*ConsulKVMonitorConfig).Validate`. -/
def ConsulKVMonitorConfig.Validate (c : Option ConsulKVMonitorConfig) : Option Error :=
  match c with
  | none => none
  | some c =>
    if c.Path = none ∨ c.Path = some "" then
      some "path is required for consul-kv condition"
    else none

/-- The method `Merge` called on an interface value, as in
`(a.Merge(b)).Merge(c)`: Go dispatches on the concrete kind the interface
holds, and the call on the nil interface panics, which is `none` here. The
`Merge` of the other kinds is not among the sources and is the parameter
`otherMerge`. -/
def MonitorConfig.Merge {κ : Type}
    (otherMerge : Option κ → MonitorConfig κ → MonitorConfig κ)
    (m o : MonitorConfig κ) : Option (MonitorConfig κ) :=
  match m with
  | .nil => none
  | .consulKV c => some (ConsulKVMonitorConfig.Merge c o)
  | .other k => some (otherMerge k o)

/-- A stand-in for the `Merge` of another kind, where only consul-kv
configurations are merged: it returns its receiver. -/
def receiverOfOtherKind (k : Option Unit) (_o : MonitorConfig Unit) : MonitorConfig Unit :=
  MonitorConfig.other k

/-- A configuration on which nothing is set. -/
def unsetConfig : ConsulKVMonitorConfig :=
  { Path := none, SourceIncludesVar := none, Recurse := none, Datacenter := none,
    Namespace := none }

/-- A configuration that sets a path and the recurse flag only. -/
def pathConfig : ConsulKVMonitorConfig :=
  { Path := some "key/path", SourceIncludesVar := none, Recurse := some true,
    Datacenter := none, Namespace := none }

end Config

namespace Tftmpl

/-! ## Library behaviour the synthesizer relies on -/

/-- A Go error, carried as its message. -/
abbrev Error := String

/-- Go's `<` on strings (lexicographic order), decided on the characters. -/
def goStringLess (a b : String) : Bool := decide (a.toList < b.toList)

/-- Go's `sort.Slice` with the comparison `less`, as an insertion sort: the
result holds the elements of the slice with none of them less than one before
it. `sort.Slice` is not stable: the library runs this insertion sort on a slice
of at most six elements in every version, and on a longer slice an algorithm
that may leave elements that compare equal in another order. The two agree when
no two elements compare equal, and on what holds of every sorted permutation. -/
def sortSlice {α : Type} (less : α → α → Bool) (l : List α) : List α :=
  l.insertionSort (fun a b => less b a = false)

/-- Go's `sort.Strings`. -/
def sortStrings (l : List String) : List String := sortSlice goStringLess l

/-- Go's `filepath.Join` of a directory and a file name, for a directory path in
clean form: the two are joined by a separator, and an empty directory is left
out. -/
def filepathJoin (dir name : String) : String :=
  if dir = "" then name else dir ++ "/" ++ name

/-- A typed configuration value (`cty.Value`, and the `interface{}` leaf it is
converted from): the nil value, a string, or any other value carried as the HCL
literal that denotes it. -/
inductive Value where
  | nil : Value
  | string (s : String) : Value
  | literal (hcl : String) : Value
deriving DecidableEq, Repr

/-- The conversion `hcl2shim.HCL2ValueFromConfigValue`; configuration values and
their typed form are carried by the same type here. -/
def HCL2ValueFromConfigValue (v : Value) : Value := v

/-- A Go `map[string]V` as its list of entries. -/
abbrev GoMap (V : Type) := List (String × V)

/-- The keys of a map, in the order of the entries. -/
def GoMap.keys {V : Type} (m : GoMap V) : List String := m.map Prod.fst

/-- The expression of an attribute in a file built with `hclwrite`: a value or a
traversal such as `var.services`. -/
inductive Expr where
  | value (v : Value) : Expr
  | traversal (names : List String) : Expr
deriving DecidableEq, Repr

/-- An item of a body built with `hclwrite`: an attribute, a nested block with
its labels and body, a newline, or raw tokens (a comment). -/
inductive Item where
  | attribute (name : String) (expr : Expr) : Item
  | block (typeName : String) (labels : List String) (body : List Item) : Item
  | newline : Item
  | tokens (bytes : String) : Item
deriving Repr

/-- A body built with `hclwrite`: its items in order. -/
abbrev Body := List Item

/-- Whether the item is the attribute called `name`. -/
def Item.isAttribute (name : String) : Item → Bool
  | .attribute n _ => n == name
  | _ => false

/-- The methods `SetAttributeValue` and `SetAttributeTraversal` of a body: an
attribute of that name already in the body gets the new expression in place,
otherwise the attribute is appended. -/
def Body.setAttribute (b : Body) (name : String) (e : Expr) : Body :=
  if b.any (Item.isAttribute name) then
    b.map (fun it => if it.isAttribute name then Item.attribute name e else it)
  else b ++ [Item.attribute name e]

/-- `SetAttributeValue`. -/
def Body.SetAttributeValue (b : Body) (name : String) (v : Value) : Body :=
  b.setAttribute name (Expr.value v)

/-- `SetAttributeTraversal`. -/
def Body.SetAttributeTraversal (b : Body) (name : String) (t : List String) : Body :=
  b.setAttribute name (Expr.traversal t)

/-- `AppendNewBlock`, given the body the block ends up with. -/
def Body.AppendNewBlock (b : Body) (typeName : String) (labels : List String)
    (inner : Body) : Body :=
  b ++ [Item.block typeName labels inner]

/-- `AppendNewline`. -/
def Body.AppendNewline (b : Body) : Body := b ++ [Item.newline]

/-- `AppendUnstructuredTokens` with one token. -/
def Body.AppendUnstructuredTokens (b : Body) (bytes : String) : Body :=
  b ++ [Item.tokens bytes]

/-- The attributes among the items of a body, in order: name and
expression. -/
def Body.attributes (b : Body) : List (String × Expr) :=
  b.filterMap (fun it =>
    match it with
    | .attribute n e => some (n, e)
    | _ => none)

/-- The blocks of the given type among the items of a body, in order: labels
and body. -/
def Body.blocksOf (typeName : String) (b : Body) : List (List String × Body) :=
  b.filterMap (fun it =>
    match it with
    | .block t labels inner => if t = typeName then some (labels, inner) else none
    | _ => none)

/-- The text of a value: a string between double quotes (escape sequences are
not modelled), any other value as its literal. -/
def Value.text : Value → String
  | .nil => "null"
  | .string s => "\"" ++ s ++ "\""
  | .literal h => h

/-- The text of an expression. -/
def Expr.text : Expr → String
  | .value v => v.text
  | .traversal names => ".".intercalate names

/-- A run of `n` spaces. -/
def spaces (n : Nat) : String := String.join (List.replicate n " ")

/-- The width `hclwrite.Format` aligns the names to in the run of attributes a
body starts with: the length of the longest name in the run. -/
def runWidth : List Item → Nat
  | .attribute n _ :: rest => max n.length (runWidth rest)
  | _ => 0

mutual
/-- The text of one item at nesting depth `depth`, its name padded to `width`
when it is an attribute. -/
def Item.text (depth width : Nat) : Item → String
  | .attribute n e =>
    spaces (2 * depth) ++ n ++ spaces (width - n.length) ++ " = " ++ e.text ++ "\n"
  | .block t labels body =>
    spaces (2 * depth) ++ t ++ String.join (labels.map (fun l => " \"" ++ l ++ "\"")) ++
      " \x7b\n" ++ Item.textList (depth + 1) none body ++ spaces (2 * depth) ++ "\x7d\n"
  | .newline => "\n"
  | .tokens bytes => spaces (2 * depth) ++ bytes
/-- The text of the items of a body; `run` is the width of the run of attributes
the previous item belongs to, if it was an attribute. -/
def Item.textList (depth : Nat) (run : Option Nat) : List Item → String
  | [] => ""
  | .attribute n e :: rest =>
    let width := run.getD (runWidth (.attribute n e :: rest))
    Item.text depth width (.attribute n e) ++ Item.textList depth (some width) rest
  | .block t labels body :: rest =>
    Item.text depth 0 (.block t labels body) ++ Item.textList depth none rest
  | .newline :: rest => Item.text depth 0 .newline ++ Item.textList depth none rest
  | .tokens bytes :: rest => Item.text depth 0 (.tokens bytes) ++ Item.textList depth none rest
end

/-- The bytes of a file built with `hclwrite` after `hclwrite.Format`, that is
`hclwrite.Format(hclFile.Bytes())`: two spaces of indentation for each level of
nesting and the equals signs of consecutive attributes aligned. -/
def Body.format (b : Body) : String := Item.textList 0 none b

/-- An `io.Writer` over a file: the bytes it holds, the number of `Write` calls
made, and which calls fail. -/
structure Writer where
  data : String
  calls : Nat
  fault : Nat → Option Error

/-- The method `Write`: the bytes are appended, or the call fails and stores
nothing. -/
def Writer.Write (w : Writer) (p : String) : Writer × Option Error :=
  match w.fault w.calls with
  | none => ({ w with data := w.data ++ p, calls := w.calls + 1 }, none)
  | some err => ({ w with calls := w.calls + 1 }, some err)

/-- The filesystem: a map from path to content. -/
abbrev FS := String → Option String

/-- The result of `os.Stat` on a path. -/
inductive StatResult where
  | ok : StatResult
  | errNotExist : StatResult
  | errOther : StatResult
deriving DecidableEq, Repr

/-- Which operations of the filesystem fail during a call: `os.Create` and
`Chmod` on a path, the n-th `Write` to the file at a path, `Sync` on a path. -/
structure Faults where
  create : String → Option Error
  chmod : String → Nat → Option Error
  write : String → Nat → Option Error
  sync : String → Option Error

/-- No operation fails. -/
def Faults.none : Faults :=
  { create := fun _ => Option.none
    chmod := fun _ _ => Option.none
    write := fun _ _ => Option.none
    sync := fun _ => Option.none }

/-- `os.Stat` over a map from path to content: a path in the map is found, any
other path does not exist. -/
def osStat (fs : FS) (name : String) : StatResult :=
  match fs name with
  | some _ => StatResult.ok
  | Option.none => StatResult.errNotExist

/-! ## `templates/tftmpl/root.go` -/

/-- The version constraint pinned in the generated root module. -/
def TerraformRequiredVersion : String := "~>0.13.0"

/-- The file name of the root module. -/
def RootFilename : String := "main.tf"

/-- The file name of the variable definitions of the root module. -/
def VarsFilename : String := "variables.tf"

/-- The file name of the variable definitions specific to the module of the
task. -/
def ModuleVarsFilename : String := "variables.module.tf"

/-- The file name of the input variables template. -/
def TFVarsTmplFilename : String := "terraform.tfvars.tmpl"

/-- The warning written at the beginning of the generated files. -/
def RootPreamble : String :=
  "# This file is generated by Consul NIA.\n" ++
  "#\n" ++
  "# The HCL blocks, arguments, variables, and values are derived from the\n" ++
  "# operator configuration for Consul NIA. Any manual changes to this file\n" ++
  "# may not be preserved and could be clobbered by a subsequent update.\n" ++
  "\n"

/-- The struct `Task`. -/
structure Task where
  Description : String
  Name : String
  Source : String
  Version : String
deriving DecidableEq, Repr

/-- The struct `Service`. -/
structure Service where
  Datacenter : String
  Description : String
  Name : String
  Namespace : String
  Tag : String
deriving DecidableEq, Repr

/-- The type `Variables`, a map from variable name to value. -/
abbrev Variables := GoMap Value

/-- `Service.TemplateServiceID`. -/
def Service.TemplateServiceID (s : Service) : String :=
  let id := s.Name
  let id := if s.Tag ≠ "" then s.Tag ++ "." ++ s.Name else id
  let id := if s.Datacenter ≠ "" then id ++ "@" ++ s.Datacenter else id
  id

/-- Modelled from the spec: the struct `namedBlock` is not among the sources. It
is a name plus a mapping from attribute name to value. -/
structure NamedBlock where
  Name : String
  Block : GoMap Value
deriving DecidableEq, Repr

/-- A raw block as the configuration gives it: a mapping from the name of the
block to the mapping of its attributes. -/
abbrev RawBlock := GoMap (GoMap Value)

/-- Modelled from the spec: `newNamedBlock` is not among the sources. The block
is constructed from a plain mapping: the key is the name of the block and the
mapping under it holds the attributes, each converted to a typed value; an empty
mapping gives a block with the empty name and no attribute. -/
def newNamedBlock (b : RawBlock) : NamedBlock :=
  match b with
  | [] => { Name := "", Block := [] }
  | (name, rawBlock) :: _ =>
    { Name := name
      Block := rawBlock.map (fun kv => (kv.1, HCL2ValueFromConfigValue kv.2)) }

/-- Modelled from the spec: `SortedAttributes` is not among the sources. It lists
the attribute names of the block in ascending order. -/
def NamedBlock.SortedAttributes (b : NamedBlock) : List String :=
  sortStrings b.Block.keys

/-- The struct `RootModuleInputData`. A nil `Backend` map is `none`. -/
structure RootModuleInputData where
  Backend : Option RawBlock
  Providers : List RawBlock
  ProviderInfo : GoMap Value
  Services : List Service
  Task : Task
  Variables : Variables
  backend : Option NamedBlock
  providers : List NamedBlock
  services : List Service
deriving DecidableEq, Repr

/-- `(*RootModuleInputData).Init`: the receiver after the call. The slice
`d.services` shares its elements with `d.Services`, so sorting it in place sorts
both. -/
def RootModuleInputData.Init (d : RootModuleInputData) : RootModuleInputData :=
  let d :=
    match d.Backend with
    | some b => { d with backend := some (newNamedBlock b) }
    | none => { d with Backend := some [] }
  let d := { d with providers := d.Providers.map newNamedBlock }
  let d := { d with
    providers := sortSlice (fun a b => goStringLess a.Name b.Name) d.providers }
  let d := { d with services := d.Services }
  let sorted := sortSlice (fun a b => goStringLess a.Name b.Name) d.services
  { d with Services := sorted, services := sorted }

/-- `sortedKeys`. -/
def sortedKeys {V : Type} (m : GoMap V) : List String :=
  sortStrings m.keys

/-- `Variables.Keys`. -/
def Variables.Keys (v : Variables) : List String :=
  sortStrings (GoMap.keys v)

/-- `appendRootTerraformBlock`. -/
def appendRootTerraformBlock (body : Body) (backend : Option NamedBlock)
    (providerInfo : GoMap Value) : Body :=
  let tfBody : Body :=
    Body.SetAttributeValue [] "required_version" (Value.string TerraformRequiredVersion)
  let tfBody :=
    if providerInfo.length ≠ 0 then
      let requiredProvidersBody : Body :=
        (sortedKeys providerInfo).foldl
          (fun rb pName =>
            match providerInfo.lookup pName with
            | some info => Body.SetAttributeValue rb pName (HCL2ValueFromConfigValue info)
            | none => rb)
          []
      tfBody.AppendNewBlock "required_providers" [] requiredProvidersBody
    else tfBody
  match backend with
  | none => body.AppendNewBlock "terraform" [] tfBody
  | some backend =>
    let backendAttrs := backend.SortedAttributes
    let backendBody : Body :=
      backendAttrs.foldl
        (fun bb attr => Body.SetAttributeValue bb attr ((backend.Block.lookup attr).getD Value.nil))
        []
    body.AppendNewBlock "terraform" []
      (tfBody.AppendNewBlock "backend" [backend.Name] backendBody)

/-- The body of one provider block in `appendRootProviderBlocks`: a reference
`var.<providerName>.<attr>` for every attribute but `alias`. -/
def providerBlockBody (p : NamedBlock) : Body :=
  p.SortedAttributes.foldl
    (fun providerBody attr =>
      if attr = "alias" then providerBody
      else Body.SetAttributeTraversal providerBody attr ["var", p.Name, attr])
    []

/-- The loop of `appendRootProviderBlocks`, from index `i` on. -/
def appendRootProviderBlocksFrom (lastIdx : Int) : Nat → List NamedBlock → Body → Body
  | _, [], body => body
  | i, p :: rest, body =>
    let body := body.AppendNewBlock "provider" [p.Name] (providerBlockBody p)
    let body := if (i : Int) ≠ lastIdx then body.AppendNewline else body
    appendRootProviderBlocksFrom lastIdx (i + 1) rest body

/-- `appendRootProviderBlocks`. -/
def appendRootProviderBlocks (body : Body) (providers : List NamedBlock) : Body :=
  let lastIdx : Int := (providers.length : Int) - 1
  appendRootProviderBlocksFrom lastIdx 0 providers body

/-- `appendComment`. -/
def appendComment (b : Body) (comment : String) : Body :=
  (b.AppendUnstructuredTokens ("# " ++ comment)).AppendNewline

/-- `appendRootModuleBlock`. -/
def appendRootModuleBlock (body : Body) (task : Task) (varNames : List String) : Body :=
  let body := if task.Description ≠ "" then appendComment body task.Description else body
  let moduleBody : Body := Body.SetAttributeValue [] "source" (Value.string task.Source)
  let moduleBody :=
    if task.Version.length > 0 then
      moduleBody.SetAttributeValue "version" (Value.string task.Version)
    else moduleBody
  let moduleBody := moduleBody.SetAttributeTraversal "services" ["var", "services"]
  let moduleBody := if varNames.length ≠ 0 then moduleBody.AppendNewline else moduleBody
  let moduleBody :=
    varNames.foldl (fun mb name => Body.SetAttributeTraversal mb name ["var", name]) moduleBody
  body.AppendNewBlock "module" [task.Name] moduleBody

/-- The body `NewMainTF` builds before formatting it. -/
def mainTFBody (input : RootModuleInputData) : Body :=
  let rootBody : Body := []
  let rootBody := appendRootTerraformBlock rootBody input.backend input.ProviderInfo
  let rootBody := rootBody.AppendNewline
  let rootBody := appendRootProviderBlocks rootBody input.providers
  let rootBody := rootBody.AppendNewline
  appendRootModuleBlock rootBody input.Task (Variables.Keys input.Variables)

/-- `NewMainTF`: the writer after the call and the error returned. A failure to
write the preamble is logged and the function carries on. -/
def NewMainTF (w : Writer) (input : RootModuleInputData) : Writer × Option Error :=
  let (w, _err) := w.Write RootPreamble
  let content := (mainTFBody input).format
  let (w, err) := w.Write content
  (w, err)

/-- A function that writes the content of one file. -/
abbrev RenderFunc := Writer → RootModuleInputData → Writer × Option Error

/-- The three functions of the table `rootFileFuncs` that are not among the
sources. -/
structure RenderFuncs where
  NewVariablesTF : RenderFunc
  NewModuleVariablesTF : RenderFunc
  NewTFVarsTmpl : RenderFunc

/-- The table `rootFileFuncs`, as its entries. -/
def rootFileFuncs (fns : RenderFuncs) : List (String × RenderFunc) :=
  [ (RootFilename, NewMainTF),
    (VarsFilename, fns.NewVariablesTF),
    (ModuleVarsFilename, fns.NewModuleVariablesTF),
    (TFVarsTmplFilename, fns.NewTFVarsTmpl) ]

/-- `fileExists`. -/
def fileExists (fs : FS) (name : String) : Bool :=
  match osStat fs name with
  | StatResult.errNotExist => false
  | _ => true

/-- `InitRootModule`: the filesystem after the call and the error returned.
`entries` are the entries of `rootFileFuncs` in the order the `range` loop
visits them, which Go leaves unspecified. -/
def InitRootModule (faults : Faults) (entries : List (String × RenderFunc))
    (input : RootModuleInputData) (modulePath : String) (filePerms : Nat) (force : Bool)
    (fs : FS) : FS × Option Error :=
  match entries with
  | [] => (fs, none)
  | (filename, newFileFunc) :: rest =>
    if filename = ModuleVarsFilename ∧ input.Variables.length = 0 then
      InitRootModule faults rest input modulePath filePerms force fs
    else
      let filePath := filepathJoin modulePath filename
      let found := fileExists fs filePath
      if found && !force then
        InitRootModule faults rest input modulePath filePerms force fs
      else
        match faults.create filePath with
        | some err => (fs, some err)
        | none =>
          let fs := Function.update fs filePath (some "")
          match faults.chmod filePath filePerms with
          | some err => (fs, some err)
          | none =>
            let f : Writer := { data := "", calls := 0, fault := faults.write filePath }
            let (f, r) := newFileFunc f input
            let fs := Function.update fs filePath (some f.data)
            match r with
            | some err => (fs, some err)
            | none =>
              let _ := faults.sync filePath
              InitRootModule faults rest input modulePath filePerms force fs

/-- Whether the loop of `InitRootModule` passes over an entry without looking
at the file: the module variables file of an input with no variable. -/
abbrev skipped (input : RootModuleInputData) (filename : String) : Prop :=
  filename = ModuleVarsFilename ∧ input.Variables.length = 0

end Tftmpl

/-! ## Concrete inputs the properties are evaluated on -/

namespace Tftmpl

/-- An input with no backend, one provider and two services. -/
def sampleInput : RootModuleInputData :=
  { Backend := none
    Providers := [[("local", [])]]
    ProviderInfo := []
    Services :=
      [ { Datacenter := "", Description := "", Name := "db", Namespace := "", Tag := "" },
        { Datacenter := "", Description := "", Name := "db", Namespace := "", Tag := "v1" } ]
    Task := { Description := "", Name := "db_task", Source := "example/module", Version := "" }
    Variables := []
    backend := none
    providers := []
    services := [] }

/-- An input whose `Backend` is set. -/
def sampleInputWithBackend : RootModuleInputData :=
  { sampleInput with Backend := some [("consul", [("path", Value.string "tf")])] }

/-- Two providers that share the name `aws`, in one order. -/
def twoAwsFirst : RootModuleInputData :=
  { sampleInput with
    Providers :=
      [ [("aws", [("region", Value.string "us-east-1")])],
        [("aws", [("profile", Value.string "ops")])] ] }

/-- The same two providers inserted in the other order. -/
def twoAwsSecond : RootModuleInputData :=
  { sampleInput with
    Providers :=
      [ [("aws", [("profile", Value.string "ops")])],
        [("aws", [("region", Value.string "us-east-1")])] ] }

/-- A writer over an empty file on which no write fails. -/
def freshWriter : Writer := { data := "", calls := 0, fault := fun _ => none }

/-- Two providers with different names, in one order. -/
def awsThenLocal : RootModuleInputData :=
  { sampleInput with
    Providers := [[("aws", [("region", Value.string "us-east-1")])], [("local", [])]] }

/-- The same two providers inserted in the other order, and the services
too. -/
def localThenAws : RootModuleInputData :=
  { sampleInput with
    Providers := [[("local", [])], [("aws", [("region", Value.string "us-east-1")])]]
    Services := sampleInput.Services.reverse }

/-- Render functions standing for the three that are not among the sources:
each writes the preamble and one line. -/
def sampleFuncs : RenderFuncs :=
  { NewVariablesTF := fun w _ => (w.Write RootPreamble).1.Write "# variables\n"
    NewModuleVariablesTF := fun w _ => (w.Write RootPreamble).1.Write "# module variables\n"
    NewTFVarsTmpl := fun w _ => (w.Write RootPreamble).1.Write "# values\n" }

/-- The filesystem with no file. -/
def emptyFS : FS := fun _ => none

/-- A module directory in which every generated file exists and `main.tf` was
edited by hand. -/
def editedFS : FS := fun p =>
  if p = "mod/main.tf" then some "# edited by hand\n"
  else if p = "mod/variables.tf" then some "# variables\n"
  else if p = "mod/terraform.tfvars.tmpl" then some "# values\n"
  else none

/-- The sample input with one user variable. -/
def sampleInputWithVariable : RootModuleInputData :=
  { sampleInput with Variables := [("region", Value.string "us-east-1")] }

/-- The first write to `mod/main.tf`, the preamble, fails; nothing else does. -/
def preambleFault : Faults :=
  { Faults.none with
    write := fun p n => if p = "mod/main.tf" ∧ n = 0 then some "disk quota exceeded" else none }

/-- `Chmod` fails on `mod/main.tf`; nothing else does. -/
def chmodFault : Faults :=
  { Faults.none with
    chmod := fun p _ => if p = "mod/main.tf" then some "operation not permitted" else none }

/-- The sample input with a user variable named `source`. -/
def sampleInputWithSourceVariable : RootModuleInputData :=
  { sampleInput with Variables := [("source", Value.string "elsewhere")] }

/-- The sample input with two user variables and a task description. -/
def sampleInputWithTwoVariables : RootModuleInputData :=
  { sampleInput with
    Variables := [("zone", Value.string "b"), ("region", Value.string "us-east-1")]
    Task := { Description := "database", Name := "db_task", Source := "example/module",
              Version := "1.2.0" } }

/-- An input first given a backend and initialised, then given a nil
`Backend`. -/
def backendThenNil : RootModuleInputData :=
  { sampleInputWithBackend.Init with Backend := none }

/-- A provider block with an alias and two more attributes. -/
def awsBlock : NamedBlock :=
  { Name := "aws"
    Block := [("region", Value.string "us-east-1"), ("alias", Value.string "west"),
              ("profile", Value.string "ops")] }

/-- The service `db`. -/
def dbService : Service :=
  { Datacenter := "", Description := "", Name := "db", Namespace := "", Tag := "" }

/-- The service `db` tagged `v1`. -/
def dbServiceV1 : Service :=
  { Datacenter := "", Description := "", Name := "db", Namespace := "", Tag := "v1" }

/-- The service `db` tagged `v1` in the datacenter `dc1`. -/
def dbServiceV1InDc1 : Service :=
  { Datacenter := "dc1", Description := "", Name := "db", Namespace := "", Tag := "v1" }

/-- The same service with a namespace and a description. -/
def dbServiceV1InDc1Described : Service :=
  { dbServiceV1InDc1 with Namespace := "prod", Description := "the database" }

/-- An input whose `Backend` is set and whose services have different names. -/
def sampleInputDistinctServices : RootModuleInputData :=
  { sampleInputWithBackend with
    Services :=
      [ { Datacenter := "", Description := "", Name := "web", Namespace := "", Tag := "" },
        { Datacenter := "", Description := "", Name := "db", Namespace := "", Tag := "v1" } ] }

end Tftmpl

/-! ## Properties of the consul-kv monitor configuration -/

namespace Config

/-- A copied optional string holds what the original holds. -/
theorem StringCopy_eq (s : Option String) : StringCopy s = s := by
  cases s <;> rfl

/-- A copied optional boolean holds what the original holds. -/
theorem BoolCopy_eq (b : Option Bool) : BoolCopy b = b := by
  cases b <;> rfl

/-- Copying a non-nil configuration gives a non-nil one with the same fields. -/
theorem Copy_some {κ : Type} (c : ConsulKVMonitorConfig) :
    (ConsulKVMonitorConfig.Copy (some c) : MonitorConfig κ) =
      MonitorConfig.consulKV (some c) := by
  simp [ConsulKVMonitorConfig.Copy, StringCopy_eq, BoolCopy_eq]

/-- Merging two non-nil consul-kv configurations overrides field by field. -/
theorem Merge_some_some {κ : Type} (c o : ConsulKVMonitorConfig) :
    (ConsulKVMonitorConfig.Merge (some c) (MonitorConfig.consulKV (some o)) :
        MonitorConfig κ) = MonitorConfig.consulKV (some (mergeFields c o)) := by
  simp [ConsulKVMonitorConfig.Merge, isConditionNil, Copy_some]

/-- C1: for non-nil `c` and `o`, `c.Merge(o)` is a non-nil configuration in which
each of the five fields equals `o`'s field when `o`'s field is set and `c`'s
field when `o`'s field is unset. -/
theorem Merge_takes_set_fields_of_other {κ : Type} (c o : ConsulKVMonitorConfig) :
    (ConsulKVMonitorConfig.Merge (some c) (MonitorConfig.consulKV (some o)) :
        MonitorConfig κ) =
      MonitorConfig.consulKV (some
        { Path := if o.Path = none then c.Path else o.Path
          SourceIncludesVar :=
            if o.SourceIncludesVar = none then c.SourceIncludesVar else o.SourceIncludesVar
          Recurse := if o.Recurse = none then c.Recurse else o.Recurse
          Datacenter := if o.Datacenter = none then c.Datacenter else o.Datacenter
          Namespace := if o.Namespace = none then c.Namespace else o.Namespace }) := by
  rw [Merge_some_some]
  obtain ⟨op, osv, orc, od, ons⟩ := o
  cases op <;> cases osv <;> cases orc <;> cases od <;> cases ons <;>
    simp [mergeFields, StringCopy_eq, BoolCopy_eq]

/-- C5: `Finalize` on a non-nil configuration leaves no field nil: a field that
was set keeps its value, an unset string field becomes the empty string and an
unset boolean field becomes false; on a nil configuration it does nothing. -/
theorem Finalize_fills_defaults (extraContext : List String) :
    ConsulKVMonitorConfig.Finalize none extraContext = none ∧
    ∀ c : ConsulKVMonitorConfig,
      ConsulKVMonitorConfig.Finalize (some c) extraContext =
        some
          { Path := some (c.Path.getD "")
            SourceIncludesVar := some (c.SourceIncludesVar.getD false)
            Recurse := some (c.Recurse.getD false)
            Datacenter := some (c.Datacenter.getD "")
            Namespace := some (c.Namespace.getD "") } := by
  refine ⟨rfl, ?_⟩
  rintro ⟨p, sv, rc, d, ns⟩
  cases p <;> cases sv <;> cases rc <;> cases d <;> cases ns <;>
    simp [ConsulKVMonitorConfig.Finalize, StringPtr, BoolPtr]

/-- C6: `Validate` returns an error exactly when the configuration is non-nil
and its `Path` is unset or the empty string; a nil configuration never errs; and
whatever it returns is either no error or the message
"path is required for consul-kv condition", which names the field `path` and
the construct, the `consul-kv` condition. -/
theorem Validate_error_iff (c : Option ConsulKVMonitorConfig) :
    ConsulKVMonitorConfig.Validate none = none ∧
    (ConsulKVMonitorConfig.Validate c ≠ none ↔
      ∃ v : ConsulKVMonitorConfig, c = some v ∧ (v.Path = none ∨ v.Path = some "")) ∧
    (ConsulKVMonitorConfig.Validate c = none ∨
      ConsulKVMonitorConfig.Validate c =
        some ("path" ++ " is required for " ++ consulKVMonitorType ++ " condition")) := by
  refine ⟨rfl, ?_, ?_⟩
  · cases c with
    | none => simp [ConsulKVMonitorConfig.Validate]
    | some v =>
      by_cases h : v.Path = none ∨ v.Path = some ""
      · simp [ConsulKVMonitorConfig.Validate, h]
      · simp [ConsulKVMonitorConfig.Validate, h]
  · cases c with
    | none => exact Or.inl rfl
    | some v =>
      by_cases h : v.Path = none ∨ v.Path = some ""
      · right
        simp only [ConsulKVMonitorConfig.Validate, h, if_true]
        rfl
      · left
        simp [ConsulKVMonitorConfig.Validate, h]

/-- C7: merging any consul-kv configuration `B` (nil or not) into a nil receiver
returns `B.Copy()`: nil when `B` is nil, otherwise a configuration with `B`'s
five field values; and for non-nil `A`, `A.Merge(nil)` returns `A.Copy()`, a
configuration with `A`'s five field values, whether the argument is the nil
interface or a nil pointer. -/
theorem Merge_with_nil_is_Copy {κ : Type} :
    (∀ B : Option ConsulKVMonitorConfig,
      (ConsulKVMonitorConfig.Merge none (MonitorConfig.consulKV B) : MonitorConfig κ) =
        ConsulKVMonitorConfig.Copy B) ∧
    (ConsulKVMonitorConfig.Merge none (MonitorConfig.nil : MonitorConfig κ) =
        MonitorConfig.nil) ∧
    ((ConsulKVMonitorConfig.Copy none : MonitorConfig κ) = MonitorConfig.nil) ∧
    (∀ B : ConsulKVMonitorConfig,
      (ConsulKVMonitorConfig.Copy (some B) : MonitorConfig κ) =
        MonitorConfig.consulKV (some B)) ∧
    (∀ A : ConsulKVMonitorConfig,
      ConsulKVMonitorConfig.Merge (some A) (MonitorConfig.nil : MonitorConfig κ) =
        ConsulKVMonitorConfig.Copy (some A) ∧
      ConsulKVMonitorConfig.Merge (some A) (MonitorConfig.consulKV none : MonitorConfig κ) =
        ConsulKVMonitorConfig.Copy (some A)) := by
  refine ⟨?_, rfl, rfl, Copy_some, ?_⟩
  · intro B
    cases B with
    | none => rfl
    | some b => simp [ConsulKVMonitorConfig.Merge, isConditionNil, MonitorConfig.Copy]
  · intro A
    exact ⟨rfl, rfl⟩

end Config

namespace Config

/-- `Finalize` on a non-nil configuration, field by field. -/
theorem Finalize_some (c : ConsulKVMonitorConfig) (extraContext : List String) :
    ConsulKVMonitorConfig.Finalize (some c) extraContext =
      some
        { Path := some (c.Path.getD "")
          SourceIncludesVar := some (c.SourceIncludesVar.getD false)
          Recurse := some (c.Recurse.getD false)
          Datacenter := some (c.Datacenter.getD "")
          Namespace := some (c.Namespace.getD "") } := by
  obtain ⟨p, sv, rc, d, ns⟩ := c
  cases p <;> cases sv <;> cases rc <;> cases d <;> cases ns <;>
    simp [ConsulKVMonitorConfig.Finalize, StringPtr, BoolPtr]

/-- The override step, field by field. -/
theorem mergeFields_eq (c o : ConsulKVMonitorConfig) :
    mergeFields c o =
      { Path := if o.Path = none then c.Path else o.Path
        SourceIncludesVar :=
          if o.SourceIncludesVar = none then c.SourceIncludesVar else o.SourceIncludesVar
        Recurse := if o.Recurse = none then c.Recurse else o.Recurse
        Datacenter := if o.Datacenter = none then c.Datacenter else o.Datacenter
        Namespace := if o.Namespace = none then c.Namespace else o.Namespace } := by
  obtain ⟨op, osv, orc, od, ons⟩ := o
  cases op <;> cases osv <;> cases orc <;> cases od <;> cases ons <;>
    simp [mergeFields, StringCopy_eq, BoolCopy_eq]

/-- Counterexample to C16: a configuration whose `Path` is left unset is given
the empty path by `Finalize`, and `Validate` then returns the error for the
path. -/
theorem Validate_rejects_defaulted_Path :
    unsetConfig.Path = none ∧
    ConsulKVMonitorConfig.Finalize (some unsetConfig) [] =
      some { Path := some "", SourceIncludesVar := some false, Recurse := some false,
             Datacenter := some "", Namespace := some "" } ∧
    ConsulKVMonitorConfig.Validate (ConsulKVMonitorConfig.Finalize (some unsetConfig) []) =
      some "path is required for consul-kv condition" := by
  decide

/-- C16, amended: for every non-nil configuration whose `Path` is set to a
non-empty string, `Finalize` followed by `Validate` returns no error, whatever
the other four fields hold; for every non-nil configuration whose `Path` is
unset, `Finalize` followed by `Validate` returns the error that names `path`;
and for every finalized configuration, replacing `Path` with the empty string
makes `Validate` return that error. -/
theorem Validate_after_Finalize (c : ConsulKVMonitorConfig) (p : String)
    (extraContext : List String) (hp : p ≠ "") :
    ConsulKVMonitorConfig.Validate
        (ConsulKVMonitorConfig.Finalize (some { c with Path := some p }) extraContext) =
      none ∧
    ConsulKVMonitorConfig.Validate
        (ConsulKVMonitorConfig.Finalize (some { c with Path := none }) extraContext) =
      some ("path" ++ " is required for " ++ consulKVMonitorType ++ " condition") ∧
    ConsulKVMonitorConfig.Validate
        ((ConsulKVMonitorConfig.Finalize (some c) extraContext).map
          (fun f => { f with Path := some "" })) =
      some ("path" ++ " is required for " ++ consulKVMonitorType ++ " condition") := by
  refine ⟨?_, ?_, ?_⟩
  · rw [Finalize_some]
    simp [ConsulKVMonitorConfig.Validate, hp]
  · rw [Finalize_some]
    simp only [ConsulKVMonitorConfig.Validate, Option.getD_none, or_true, if_true]
    rfl
  · rw [Finalize_some]
    simp only [Option.map_some', ConsulKVMonitorConfig.Validate, or_true, if_true]
    rfl

/-- Witness of the amended C16 on a configuration that sets its path. -/
theorem Validate_after_Finalize_witness :
    ("key/path" : String) ≠ "" ∧
    ConsulKVMonitorConfig.Validate
        (ConsulKVMonitorConfig.Finalize (some { unsetConfig with Path := some "key/path" })
          ["task"]) = none :=
  ⟨by decide, (Validate_after_Finalize unsetConfig "key/path" ["task"] (by decide)).1⟩

/-- C17: finalizing twice, with any two `extraContext` lists, leaves a
configuration (nil or not) in the state finalizing once leaves it in; and the
list passed does not matter. -/
theorem Finalize_idempotent (x : Option ConsulKVMonitorConfig)
    (extraContext₁ extraContext₂ : List String) :
    ConsulKVMonitorConfig.Finalize (ConsulKVMonitorConfig.Finalize x extraContext₁)
        extraContext₂ =
      ConsulKVMonitorConfig.Finalize x extraContext₁ ∧
    ConsulKVMonitorConfig.Finalize x extraContext₁ =
      ConsulKVMonitorConfig.Finalize x extraContext₂ := by
  cases x with
  | none => exact ⟨rfl, rfl⟩
  | some c =>
    refine ⟨?_, ?_⟩
    · rw [Finalize_some, Finalize_some]
      simp
    · rw [Finalize_some, Finalize_some]

/-- C18: merging a non-nil configuration of another concrete kind into a
non-nil consul-kv configuration returns the copy of the receiver, a
configuration with exactly the five field values of the receiver; `Merge` has no
error result. -/
theorem Merge_other_kind_returns_receiver {κ : Type} (c : ConsulKVMonitorConfig) (k : κ) :
    ConsulKVMonitorConfig.Merge (some c) (MonitorConfig.other (some k)) =
      MonitorConfig.consulKV (some c) ∧
    ConsulKVMonitorConfig.Merge (some c) (MonitorConfig.other (some k)) =
      ConsulKVMonitorConfig.Copy (some c) := by
  refine ⟨?_, ?_⟩
  · simp [ConsulKVMonitorConfig.Merge, isConditionNil, Copy_some]
  · simp [ConsulKVMonitorConfig.Merge, isConditionNil]

/-- C19: when the override is a finalized configuration, merging it into any
receiver, nil or not, gives the override itself in all five fields: no value of
the receiver survives. -/
theorem Merge_finalized_override_wins {κ : Type} (c : Option ConsulKVMonitorConfig)
    (o : ConsulKVMonitorConfig) (extraContext : List String) :
    (ConsulKVMonitorConfig.Merge c
        (MonitorConfig.consulKV (ConsulKVMonitorConfig.Finalize (some o) extraContext)) :
        MonitorConfig κ) =
      MonitorConfig.consulKV (ConsulKVMonitorConfig.Finalize (some o) extraContext) := by
  rw [Finalize_some]
  cases c with
  | none =>
    simp [ConsulKVMonitorConfig.Merge, isConditionNil, MonitorConfig.Copy, Copy_some]
  | some c =>
    rw [Merge_some_some, mergeFields_eq]
    simp

/-- The override step is associative. -/
theorem mergeFields_assoc (a b c : ConsulKVMonitorConfig) :
    mergeFields (mergeFields a b) c = mergeFields a (mergeFields b c) := by
  simp only [mergeFields_eq]
  obtain ⟨cp, csv, crc, cd, cns⟩ := c
  cases cp <;> cases csv <;> cases crc <;> cases cd <;> cases cns <;> simp

/-- Overriding a configuration with itself changes nothing. -/
theorem mergeFields_self (a : ConsulKVMonitorConfig) : mergeFields a a = a := by
  rw [mergeFields_eq]
  obtain ⟨p, sv, rc, d, ns⟩ := a
  cases p <;> cases sv <;> cases rc <;> cases d <;> cases ns <;> simp

/-- Counterexample to C20: with `a` and `b` both nil, `a.Merge(b)` is the nil
interface, and calling `Merge` on it panics, so `(a.Merge(b)).Merge(c)` returns
nothing, while `a.Merge(b.Merge(c))` returns the copy of `c`. -/
theorem Merge_on_nil_Merge_nil_panics :
    (ConsulKVMonitorConfig.Merge none (MonitorConfig.consulKV none) : MonitorConfig Unit) =
      MonitorConfig.nil ∧
    MonitorConfig.Merge receiverOfOtherKind
        (ConsulKVMonitorConfig.Merge none (MonitorConfig.consulKV none))
        (MonitorConfig.consulKV (some pathConfig)) = none ∧
    (ConsulKVMonitorConfig.Merge none
        (ConsulKVMonitorConfig.Merge none (MonitorConfig.consulKV (some pathConfig))) :
        MonitorConfig Unit) =
      MonitorConfig.consulKV (some pathConfig) := by
  decide

/-- C20, amended: for consul-kv configurations `a`, `b`, `c` (nil included) of
which `a` and `b` are not both nil, `(a.Merge(b)).Merge(c)` returns and equals
`a.Merge(b.Merge(c))`; `nil.Merge(a)`, `a.Merge(nil)` (the nil pointer or the
nil interface) and `a.Merge(a)` all equal the copy of `a`, which has the five
field values of `a` and is nil when `a` is nil. -/
theorem Merge_associative_unless_both_nil {κ : Type}
    (otherMerge : Option κ → MonitorConfig κ → MonitorConfig κ)
    (a b c : Option ConsulKVMonitorConfig) (h : a ≠ none ∨ b ≠ none) :
    MonitorConfig.Merge otherMerge
        (ConsulKVMonitorConfig.Merge a (MonitorConfig.consulKV b))
        (MonitorConfig.consulKV c) =
      some (ConsulKVMonitorConfig.Merge a
        (ConsulKVMonitorConfig.Merge b (MonitorConfig.consulKV c))) ∧
    (ConsulKVMonitorConfig.Merge none (MonitorConfig.consulKV a) : MonitorConfig κ) =
      ConsulKVMonitorConfig.Copy a ∧
    (ConsulKVMonitorConfig.Merge a (MonitorConfig.consulKV none) : MonitorConfig κ) =
      ConsulKVMonitorConfig.Copy a ∧
    (ConsulKVMonitorConfig.Merge a MonitorConfig.nil : MonitorConfig κ) =
      ConsulKVMonitorConfig.Copy a ∧
    (ConsulKVMonitorConfig.Merge a (MonitorConfig.consulKV a) : MonitorConfig κ) =
      ConsulKVMonitorConfig.Copy a ∧
    (ConsulKVMonitorConfig.Copy none : MonitorConfig κ) = MonitorConfig.nil ∧
    (∀ x : ConsulKVMonitorConfig,
      (ConsulKVMonitorConfig.Copy (some x) : MonitorConfig κ) =
        MonitorConfig.consulKV (some x)) := by
  have hnil : ∀ x : Option ConsulKVMonitorConfig,
      (ConsulKVMonitorConfig.Merge none (MonitorConfig.consulKV x) : MonitorConfig κ) =
        ConsulKVMonitorConfig.Copy x := by
    intro x
    cases x with
    | none => rfl
    | some x => simp [ConsulKVMonitorConfig.Merge, isConditionNil, MonitorConfig.Copy]
  have hright : ∀ x : Option ConsulKVMonitorConfig,
      (ConsulKVMonitorConfig.Merge x (MonitorConfig.consulKV none) : MonitorConfig κ) =
        ConsulKVMonitorConfig.Copy x := by
    intro x
    cases x <;> rfl
  refine ⟨?_, hnil a, hright a, ?_, ?_, rfl, Copy_some⟩
  · cases a with
    | none =>
      cases b with
      | none => exact absurd rfl (h.elim id id)
      | some b =>
        cases c with
        | none =>
          simp [hnil, hright, Copy_some, MonitorConfig.Merge]
        | some c =>
          simp [hnil, Copy_some, Merge_some_some, MonitorConfig.Merge]
    | some a =>
      cases b with
      | none =>
        cases c with
        | none =>
          have hcopy : (ConsulKVMonitorConfig.Copy none : MonitorConfig κ) =
              MonitorConfig.nil := rfl
          simp [hnil, hright, hcopy, Copy_some, MonitorConfig.Merge,
            ConsulKVMonitorConfig.Merge, isConditionNil]
        | some c =>
          simp [hnil, hright, Copy_some, Merge_some_some, MonitorConfig.Merge]
      | some b =>
        cases c with
        | none => simp [hright, Copy_some, Merge_some_some, MonitorConfig.Merge]
        | some c =>
          simp [Merge_some_some, MonitorConfig.Merge, mergeFields_assoc]
  · cases a <;> rfl
  · cases a with
    | none => rfl
    | some a => rw [Merge_some_some, mergeFields_self, Copy_some]

/-- Witness of the amended C20: a configuration with a path, the nil pointer
and a configuration with nothing set. -/
theorem Merge_associative_unless_both_nil_witness :
    (some pathConfig ≠ none ∨ (none : Option ConsulKVMonitorConfig) ≠ none) ∧
    MonitorConfig.Merge receiverOfOtherKind
        (ConsulKVMonitorConfig.Merge (some pathConfig) (MonitorConfig.consulKV none))
        (MonitorConfig.consulKV (some unsetConfig)) =
      some (ConsulKVMonitorConfig.Merge (some pathConfig)
        (ConsulKVMonitorConfig.Merge none (MonitorConfig.consulKV (some unsetConfig)))) :=
  ⟨Or.inl (by decide),
    (Merge_associative_unless_both_nil receiverOfOtherKind (some pathConfig) none
      (some unsetConfig) (Or.inl (by decide))).1⟩

end Config

/-! ## Properties of the root-module synthesizer -/

namespace Tftmpl

/-- The comparison of the model agrees with the order on strings. -/
theorem goStringLess_iff (a b : String) : goStringLess a b = true ↔ a < b := by
  simp [goStringLess, String.lt_iff_toList_lt]

/-- The relation `sortSlice` sorts by: the key of the left element is at most the
key of the right one. -/
theorem less_eq_false_iff {α : Type} (key : α → String) (a b : α) :
    goStringLess (key b) (key a) = false ↔ key a ≤ key b := by
  rw [← not_lt, ← goStringLess_iff]
  simp

/-- Sorting by a string key keeps the elements. -/
theorem sortSlice_perm {α : Type} (key : α → String) (l : List α) :
    (sortSlice (fun a b => goStringLess (key a) (key b)) l).Perm l :=
  List.perm_insertionSort _ l

/-- Sorting by a string key leaves the keys in non-decreasing order. -/
theorem sortSlice_sorted {α : Type} (key : α → String) (l : List α) :
    (sortSlice (fun a b => goStringLess (key a) (key b)) l).Pairwise
      (fun a b => key a ≤ key b) := by
  have total : IsTotal α (fun a b => goStringLess (key b) (key a) = false) :=
    ⟨fun a b => by
      simp only [less_eq_false_iff]
      exact le_total (key a) (key b)⟩
  have trans : IsTrans α (fun a b => goStringLess (key b) (key a) = false) :=
    ⟨fun a b c hab hbc => by
      simp only [less_eq_false_iff] at hab hbc ⊢
      exact le_trans hab hbc⟩
  have h := List.sorted_insertionSort (fun a b => goStringLess (key b) (key a) = false) l
  exact List.Pairwise.imp (fun {a b} hab => (less_eq_false_iff key a b).1 hab) h

/-- Two lists with the same elements, none of which share a key, sort to the
same list. -/
theorem sortSlice_eq_of_perm {α : Type} (key : α → String) (l₁ l₂ : List α)
    (hp : l₁.Perm l₂) (hn : (l₁.map key).Nodup) :
    sortSlice (fun a b => goStringLess (key a) (key b)) l₁ =
      sortSlice (fun a b => goStringLess (key a) (key b)) l₂ := by
  have strict : ∀ l : List α, (l.map key).Nodup →
      (sortSlice (fun a b => goStringLess (key a) (key b)) l).Pairwise
        (fun a b => key a < key b) := by
    intro l hl
    have hs := sortSlice_sorted key l
    have hperm := sortSlice_perm key l
    have hnd : ((sortSlice (fun a b => goStringLess (key a) (key b)) l).map key).Nodup :=
      (hperm.map key).nodup_iff.2 hl
    have hle : ((sortSlice (fun a b => goStringLess (key a) (key b)) l).map key).Sorted
        (· ≤ ·) := List.pairwise_map.2 hs
    exact List.pairwise_map.1 (List.Sorted.lt_of_le hle hnd)
  have anti : IsAntisymm α (fun a b => key a < key b) :=
    ⟨fun a b hab hba => absurd hab (lt_asymm hba)⟩
  have hn₂ : (l₂.map key).Nodup := (hp.map key).nodup_iff.1 hn
  exact List.eq_of_perm_of_sorted
    (((sortSlice_perm key l₁).trans hp).trans (sortSlice_perm key l₂).symm)
    (strict l₁ hn) (strict l₂ hn₂)

/-- Sorting again a sorted list in which no two elements share a key changes
nothing: a list has one sorted permutation when its keys are distinct. -/
theorem sortSlice_again_of_nodup {α : Type} (key : α → String) (l : List α)
    (hn : (l.map key).Nodup) :
    sortSlice (fun a b => goStringLess (key a) (key b))
        (sortSlice (fun a b => goStringLess (key a) (key b)) l) =
      sortSlice (fun a b => goStringLess (key a) (key b)) l :=
  sortSlice_eq_of_perm key _ l (sortSlice_perm key l)
    (((sortSlice_perm key l).map key).nodup_iff.2 hn)

/-- Counterexample to C4: on an input whose `Backend` is nil the first `Init`
leaves the internal backend block nil and stores an empty map in `Backend`; the
second `Init` then builds an internal backend block from that empty map. -/
theorem Init_twice_differs_on_nil_Backend :
    sampleInput.Backend = none ∧
    sampleInput.Init.backend = none ∧
    sampleInput.Init.Init.backend = some { Name := "", Block := [] } ∧
    sampleInput.Init.Init ≠ sampleInput.Init := by
  decide

/-- C4, amended: for every input whose `Backend` is not nil and in which no two
services share a name, calling `Init` twice leaves the input in the same state
(public `Backend`, internal backend block, internal provider blocks, internal
services list) as calling it once. -/
theorem Init_idempotent_of_Backend_and_distinct_services (d : RootModuleInputData)
    (h : d.Backend ≠ none) (hs : (d.Services.map (fun s => s.Name)).Nodup) :
    d.Init.Init = d.Init := by
  obtain ⟨B, P, PI, S, T, V, b, p, s⟩ := d
  cases B with
  | none => exact absurd rfl h
  | some B =>
    simp only [RootModuleInputData.Init]
    rw [sortSlice_again_of_nodup (fun s : Service => s.Name) S hs]

/-- Witness of the amended C4 on an input with a consul backend and the
services `web` and `db`. -/
theorem Init_idempotent_of_Backend_and_distinct_services_witness :
    sampleInputDistinctServices.Backend ≠ none ∧
    (sampleInputDistinctServices.Services.map (fun s => s.Name)).Nodup ∧
    sampleInputDistinctServices.Init.Init = sampleInputDistinctServices.Init :=
  ⟨by decide, by decide,
    Init_idempotent_of_Backend_and_distinct_services sampleInputDistinctServices
      (by decide) (by decide)⟩

/-- What `Init` leaves in the fields `NewMainTF` reads. -/
theorem Init_fields (d : RootModuleInputData) :
    d.Init.backend =
      (match d.Backend with
       | some b => some (newNamedBlock b)
       | none => d.backend) ∧
    d.Init.providers =
      sortSlice (fun a b => goStringLess a.Name b.Name) (d.Providers.map newNamedBlock) ∧
    d.Init.services = sortSlice (fun a b => goStringLess a.Name b.Name) d.Services ∧
    d.Init.ProviderInfo = d.ProviderInfo ∧ d.Init.Task = d.Task ∧
    d.Init.Variables = d.Variables := by
  obtain ⟨B, P, PI, S, T, V, b, p, s⟩ := d
  cases B <;> simp [RootModuleInputData.Init]

/-- `NewMainTF` reads only the internal backend block, the provider info, the
internal provider blocks, the task and the variables. -/
theorem NewMainTF_congr (w : Writer) (d₁ d₂ : RootModuleInputData)
    (hb : d₁.backend = d₂.backend) (hi : d₁.ProviderInfo = d₂.ProviderInfo)
    (hp : d₁.providers = d₂.providers) (ht : d₁.Task = d₂.Task)
    (hv : d₁.Variables = d₂.Variables) : NewMainTF w d₁ = NewMainTF w d₂ := by
  simp only [NewMainTF, mainTFBody, hb, hi, hp, ht, hv]

set_option maxRecDepth 100000 in
/-- Counterexample to C3: two inputs that differ only in the order of two
providers sharing the name `aws`. `Init` sorts by name alone, so each keeps its
order of insertion, and `NewMainTF` writes the two provider blocks in a
different order for each. -/
theorem NewMainTF_depends_on_order_of_equal_names :
    twoAwsFirst.Providers.Perm twoAwsSecond.Providers ∧
    twoAwsFirst.Services.Perm twoAwsSecond.Services ∧
    twoAwsFirst.Task = twoAwsSecond.Task ∧
    twoAwsFirst.Backend = twoAwsSecond.Backend ∧
    twoAwsFirst.backend = twoAwsSecond.backend ∧
    twoAwsFirst.ProviderInfo = twoAwsSecond.ProviderInfo ∧
    twoAwsFirst.Variables = twoAwsSecond.Variables ∧
    twoAwsFirst.Init.providers =
      [ { Name := "aws", Block := [("region", Value.string "us-east-1")] },
        { Name := "aws", Block := [("profile", Value.string "ops")] } ] ∧
    twoAwsSecond.Init.providers =
      [ { Name := "aws", Block := [("profile", Value.string "ops")] },
        { Name := "aws", Block := [("region", Value.string "us-east-1")] } ] ∧
    (NewMainTF freshWriter twoAwsFirst.Init).2 = none ∧
    (NewMainTF freshWriter twoAwsSecond.Init).2 = none ∧
    (NewMainTF freshWriter twoAwsFirst.Init).1.data ≠
      (NewMainTF freshWriter twoAwsSecond.Init).1.data := by
  refine ⟨?_, ?_, ?_, ?_, ?_, ?_, ?_, ?_, ?_, ?_, ?_, ?_⟩ <;> decide

/-- C3, amended: for every two inputs that hold the same task, backend, provider
info and variables, whose `Providers` lists and `Services` lists are
permutations of each other and in which no two providers share a name, `Init`
followed by `NewMainTF` writes the same bytes and returns the same error for
both, on every writer. -/
theorem NewMainTF_independent_of_insertion_order (w : Writer)
    (d₁ d₂ : RootModuleInputData)
    (hT : d₁.Task = d₂.Task) (hB : d₁.Backend = d₂.Backend) (hb : d₁.backend = d₂.backend)
    (hI : d₁.ProviderInfo = d₂.ProviderInfo) (hV : d₁.Variables = d₂.Variables)
    (hP : d₁.Providers.Perm d₂.Providers) (_hS : d₁.Services.Perm d₂.Services)
    (hN : (d₁.Providers.map (fun p => (newNamedBlock p).Name)).Nodup) :
    NewMainTF w d₁.Init = NewMainTF w d₂.Init := by
  obtain ⟨b₁, p₁, _, i₁, t₁, v₁⟩ := Init_fields d₁
  obtain ⟨b₂, p₂, _, i₂, t₂, v₂⟩ := Init_fields d₂
  apply NewMainTF_congr
  · rw [b₁, b₂, hB, hb]
  · rw [i₁, i₂, hI]
  · rw [p₁, p₂]
    apply sortSlice_eq_of_perm (fun b : NamedBlock => b.Name)
    · exact hP.map newNamedBlock
    · simpa [List.map_map] using hN
  · rw [t₁, t₂, hT]
  · rw [v₁, v₂, hV]

/-- Witness of the amended C3 on two providers with different names. -/
theorem NewMainTF_independent_of_insertion_order_witness :
    awsThenLocal.Providers.Perm localThenAws.Providers ∧
    awsThenLocal.Providers ≠ localThenAws.Providers ∧
    NewMainTF freshWriter awsThenLocal.Init = NewMainTF freshWriter localThenAws.Init :=
  ⟨by decide, by decide,
    NewMainTF_independent_of_insertion_order freshWriter awsThenLocal localThenAws
      (by decide) (by decide) (by decide) (by decide) (by decide) (by decide) (by decide)
      (by decide)⟩

end Tftmpl

namespace Tftmpl

/-- Joining a directory with two different file names gives two different
paths. -/
theorem filepathJoin_injective (dir : String) : Function.Injective (filepathJoin dir) := by
  intro a b h
  unfold filepathJoin at h
  split_ifs at h with hd
  · exact h
  · have h2 := congrArg String.data h
    simp only [String.data_append, List.append_assoc] at h2
    exact String.ext (List.append_cancel_left (List.append_cancel_left h2))

/-- A path exists exactly when the map holds a content for it. -/
theorem fileExists_iff (fs : FS) (p : String) : fileExists fs p = true ↔ fs p ≠ none := by
  unfold fileExists osStat
  cases fs p <;> simp

/-- Running the loop over two lists in a row: the second list is visited only
when the first went through without error. -/
theorem InitRootModule_append (faults : Faults) (pre post : List (String × RenderFunc))
    (input : RootModuleInputData) (modulePath : String) (filePerms : Nat) (force : Bool)
    (fs : FS) :
    InitRootModule faults (pre ++ post) input modulePath filePerms force fs =
      (match InitRootModule faults pre input modulePath filePerms force fs with
       | (fs₁, none) => InitRootModule faults post input modulePath filePerms force fs₁
       | (fs₁, some err) => (fs₁, some err)) := by
  induction pre generalizing fs with
  | nil => simp [InitRootModule]
  | cons e rest ih =>
    obtain ⟨filename, fn⟩ := e
    simp only [List.cons_append, InitRootModule]
    split_ifs
    · exact ih fs
    · exact ih fs
    · split
      · rfl
      · split
        · rfl
        · split
          · rfl
          · exact ih _

/-- A path that no visited entry writes to holds after the call what it held
before. -/
theorem InitRootModule_untouched (faults : Faults) (entries : List (String × RenderFunc))
    (input : RootModuleInputData) (modulePath : String) (filePerms : Nat) (force : Bool)
    (fs : FS) (p : String)
    (hp : ∀ e ∈ entries, ¬ skipped input e.1 → filepathJoin modulePath e.1 ≠ p) :
    (InitRootModule faults entries input modulePath filePerms force fs).1 p = fs p := by
  induction entries generalizing fs with
  | nil => simp [InitRootModule]
  | cons e rest ih =>
    obtain ⟨filename, fn⟩ := e
    have hrest : ∀ e ∈ rest, ¬ skipped input e.1 → filepathJoin modulePath e.1 ≠ p :=
      fun e he => hp e (List.mem_cons_of_mem _ he)
    simp only [InitRootModule]
    split_ifs with hskip hfound
    · exact ih fs hrest
    · exact ih fs hrest
    · have hne : filepathJoin modulePath filename ≠ p :=
        hp (filename, fn) (List.mem_cons_self _ _) hskip
      split
      · rfl
      · split
        · simp [Function.update_noteq hne.symm]
        · split
          · simp [Function.update_noteq hne.symm]
          · rw [ih _ hrest]
            simp [Function.update_noteq hne.symm]

/-- Without `force`, a file that exists keeps its content. -/
theorem InitRootModule_keeps_existing (faults : Faults)
    (entries : List (String × RenderFunc)) (input : RootModuleInputData)
    (modulePath : String) (filePerms : Nat) (fs : FS) (p content : String)
    (hp : fs p = some content) :
    (InitRootModule faults entries input modulePath filePerms false fs).1 p =
      some content := by
  induction entries generalizing fs with
  | nil => simpa [InitRootModule] using hp
  | cons e rest ih =>
    obtain ⟨filename, fn⟩ := e
    simp only [InitRootModule]
    split_ifs with hskip hfound
    · exact ih fs hp
    · exact ih fs hp
    · have hne : filepathJoin modulePath filename ≠ p := by
        intro heq
        apply hfound
        simp only [Bool.not_false, Bool.and_true]
        rw [fileExists_iff, heq, hp]
        simp
      split
      · exact hp
      · split
        · simpa [Function.update_noteq hne.symm] using hp
        · split
          · simpa [Function.update_noteq hne.symm] using hp
          · apply ih
            simpa [Function.update_noteq hne.symm] using hp

/-- A file that exists before the call exists after it. -/
theorem InitRootModule_exists_mono (faults : Faults)
    (entries : List (String × RenderFunc)) (input : RootModuleInputData)
    (modulePath : String) (filePerms : Nat) (force : Bool) (fs : FS) (p : String)
    (hp : fs p ≠ none) :
    (InitRootModule faults entries input modulePath filePerms force fs).1 p ≠ none := by
  induction entries generalizing fs with
  | nil => simpa [InitRootModule] using hp
  | cons e rest ih =>
    obtain ⟨filename, fn⟩ := e
    have upd : ∀ (g : FS) (c : String), g p ≠ none →
        Function.update g (filepathJoin modulePath filename) (some c) p ≠ none := by
      intro g c hg
      by_cases heq : p = filepathJoin modulePath filename
      · subst heq
        simp
      · simpa [Function.update_noteq heq] using hg
    simp only [InitRootModule]
    split_ifs with hskip hfound
    · exact ih fs hp
    · exact ih fs hp
    · split
      · exact hp
      · split
        · exact upd fs "" hp
        · split
          · exact upd _ _ (upd fs "" hp)
          · exact ih _ (upd _ _ (upd fs "" hp))

/-- After a call that returns no error, every file the loop does not pass over
exists. -/
theorem InitRootModule_success_exists (faults : Faults)
    (entries : List (String × RenderFunc)) (input : RootModuleInputData)
    (modulePath : String) (filePerms : Nat) (force : Bool) (fs : FS)
    (hok : (InitRootModule faults entries input modulePath filePerms force fs).2 = none) :
    ∀ e ∈ entries, ¬ skipped input e.1 →
      (InitRootModule faults entries input modulePath filePerms force fs).1
        (filepathJoin modulePath e.1) ≠ none := by
  induction entries generalizing fs with
  | nil => simp
  | cons e rest ih =>
    obtain ⟨filename, fn⟩ := e
    intro e' he' hns
    simp only [InitRootModule] at hok ⊢
    split_ifs at hok ⊢ with hskip hfound
    · rcases List.mem_cons.1 he' with rfl | hmem
      · exact absurd hskip hns
      · exact ih fs hok e' hmem hns
    · rcases List.mem_cons.1 he' with rfl | hmem
      · apply InitRootModule_exists_mono
        simp only [Bool.and_eq_true] at hfound
        exact (fileExists_iff _ _).1 hfound.1
      · exact ih fs hok e' hmem hns
    · split at hok
      · simp at hok
      · split at hok
        · simp at hok
        · split at hok
          · simp at hok
          · rcases List.mem_cons.1 he' with rfl | hmem
            · apply InitRootModule_exists_mono
              simp
            · exact ih _ hok e' hmem hns

/-- Without `force`, when every file the loop does not pass over already exists,
the call returns no error and the filesystem is the one it started from. -/
theorem InitRootModule_all_exist (faults : Faults)
    (entries : List (String × RenderFunc)) (input : RootModuleInputData)
    (modulePath : String) (filePerms : Nat) (fs : FS)
    (hall : ∀ e ∈ entries, ¬ skipped input e.1 →
      fs (filepathJoin modulePath e.1) ≠ none) :
    InitRootModule faults entries input modulePath filePerms false fs = (fs, none) := by
  induction entries with
  | nil => simp [InitRootModule]
  | cons e rest ih =>
    obtain ⟨filename, fn⟩ := e
    have hrest : ∀ e ∈ rest, ¬ skipped input e.1 →
        fs (filepathJoin modulePath e.1) ≠ none :=
      fun e he => hall e (List.mem_cons_of_mem _ he)
    simp only [InitRootModule]
    split_ifs with hskip hfound
    · exact ih hrest
    · exact ih hrest
    · exfalso
      apply hfound
      simp only [Bool.not_false, Bool.and_true]
      exact (fileExists_iff _ _).2 (hall (filename, fn) (List.mem_cons_self _ _) hskip)

/-- With `force`, after a call that returns no error over entries with distinct
file names, every file the loop does not pass over holds what its function
writes on an empty file. -/
theorem InitRootModule_force_content (faults : Faults)
    (entries : List (String × RenderFunc)) (input : RootModuleInputData)
    (modulePath : String) (filePerms : Nat) (fs : FS)
    (hnd : (entries.map Prod.fst).Nodup)
    (hok : (InitRootModule faults entries input modulePath filePerms true fs).2 = none) :
    ∀ e ∈ entries, ¬ skipped input e.1 →
      (InitRootModule faults entries input modulePath filePerms true fs).1
          (filepathJoin modulePath e.1) =
        some (e.2 { data := "", calls := 0,
                    fault := faults.write (filepathJoin modulePath e.1) } input).1.data := by
  induction entries generalizing fs with
  | nil => simp
  | cons e rest ih =>
    obtain ⟨filename, fn⟩ := e
    intro e' he' hns
    simp only [List.map_cons, List.nodup_cons] at hnd
    simp only [InitRootModule] at hok ⊢
    split_ifs at hok ⊢ with hskip hfound
    · rcases List.mem_cons.1 he' with rfl | hmem
      · exact absurd hskip hns
      · exact ih fs hnd.2 hok e' hmem hns
    · simp at hfound
    · split at hok
      · simp at hok
      · split at hok
        · simp at hok
        · split at hok
          · simp at hok
          · rcases List.mem_cons.1 he' with rfl | hmem
            · rw [InitRootModule_untouched]
              · simp
              · intro e he _ heq
                apply hnd.1
                have hname : e.1 = filename := filepathJoin_injective modulePath heq
                rw [← hname]
                exact List.mem_map_of_mem Prod.fst he
            · exact ih _ hnd.2 hok e' hmem hns

end Tftmpl

namespace Tftmpl

/-- C2: a call of `InitRootModule` with `force` false leaves the content of
every file that already exists unchanged; when every file it would generate
already exists it returns no error and the filesystem is unchanged; so after a
call that returned no error, a second call without `force` (whatever the order
of its visit, its failing operations and its permissions) returns no error and
changes nothing. -/
theorem InitRootModule_without_force_preserves (faults faults₂ : Faults)
    (entries entries₂ : List (String × RenderFunc)) (input : RootModuleInputData)
    (modulePath : String) (filePerms filePerms₂ : Nat) (force : Bool) (fs : FS) :
    (∀ p content, fs p = some content →
      (InitRootModule faults entries input modulePath filePerms false fs).1 p =
        some content) ∧
    ((∀ e ∈ entries, ¬ skipped input e.1 → fs (filepathJoin modulePath e.1) ≠ none) →
      InitRootModule faults entries input modulePath filePerms false fs = (fs, none)) ∧
    (entries₂.Perm entries →
      (InitRootModule faults entries input modulePath filePerms force fs).2 = none →
      InitRootModule faults₂ entries₂ input modulePath filePerms₂ false
          (InitRootModule faults entries input modulePath filePerms force fs).1 =
        ((InitRootModule faults entries input modulePath filePerms force fs).1, none)) := by
  refine ⟨?_, ?_, ?_⟩
  · intro p content hp
    exact InitRootModule_keeps_existing faults entries input modulePath filePerms fs p
      content hp
  · exact InitRootModule_all_exist faults entries input modulePath filePerms fs
  · intro hperm hok
    apply InitRootModule_all_exist
    intro e he hns
    exact InitRootModule_success_exists faults entries input modulePath filePerms force fs
      hok e (hperm.mem_iff.1 he) hns

/-- Witness of C2: in a module directory where `main.tf` was edited by hand, a
call without `force` leaves the edit in place, and a second call after a first
one with `force` on an empty directory changes nothing. -/
theorem InitRootModule_without_force_preserves_witness :
    editedFS "mod/main.tf" = some "# edited by hand\n" ∧
    (InitRootModule Faults.none (rootFileFuncs sampleFuncs) sampleInput.Init "mod" 420 false
        editedFS).1 "mod/main.tf" = some "# edited by hand\n" ∧
    InitRootModule Faults.none (rootFileFuncs sampleFuncs).reverse sampleInput.Init "mod" 384
        false
        (InitRootModule Faults.none (rootFileFuncs sampleFuncs) sampleInput.Init "mod" 420
          true emptyFS).1 =
      ((InitRootModule Faults.none (rootFileFuncs sampleFuncs) sampleInput.Init "mod" 420
          true emptyFS).1, none) :=
  ⟨by decide,
    (InitRootModule_without_force_preserves Faults.none Faults.none
      (rootFileFuncs sampleFuncs) (rootFileFuncs sampleFuncs).reverse sampleInput.Init "mod"
      420 384 false editedFS).1 "mod/main.tf" "# edited by hand\n" (by decide),
    (InitRootModule_without_force_preserves Faults.none Faults.none
      (rootFileFuncs sampleFuncs) (rootFileFuncs sampleFuncs).reverse sampleInput.Init "mod"
      420 384 true emptyFS).2.2 (List.reverse_perm _) (by decide)⟩

/-- C8: when `InitRootModule` with `force` true returns no error, each file it
generates (each entry of `rootFileFuncs`, the module variables file only when
the input has a variable) holds exactly what its function writes on an empty
file for that input, whatever the file held before; for `main.tf`, when no write
to it fails, that is the preamble followed by the formatted body. -/
theorem InitRootModule_force_overwrites (fns : RenderFuncs) (faults : Faults)
    (entries : List (String × RenderFunc)) (input : RootModuleInputData)
    (modulePath : String) (filePerms : Nat) (fs : FS)
    (hperm : entries.Perm (rootFileFuncs fns))
    (hok : (InitRootModule faults entries input modulePath filePerms true fs).2 = none) :
    (∀ e ∈ rootFileFuncs fns, ¬ skipped input e.1 →
      (InitRootModule faults entries input modulePath filePerms true fs).1
          (filepathJoin modulePath e.1) =
        some (e.2 { data := "", calls := 0,
                    fault := faults.write (filepathJoin modulePath e.1) } input).1.data) ∧
    ((∀ n, faults.write (filepathJoin modulePath RootFilename) n = none) →
      (InitRootModule faults entries input modulePath filePerms true fs).1
          (filepathJoin modulePath RootFilename) =
        some (RootPreamble ++ (mainTFBody input).format)) := by
  have hnd : (entries.map Prod.fst).Nodup := by
    rw [(hperm.map Prod.fst).nodup_iff]
    show [RootFilename, VarsFilename, ModuleVarsFilename, TFVarsTmplFilename].Nodup
    decide
  have hall := InitRootModule_force_content faults entries input modulePath filePerms fs
    hnd hok
  refine ⟨fun e he hns => hall e (hperm.mem_iff.2 he) hns, ?_⟩
  intro hw
  have hmain : (RootFilename, NewMainTF) ∈ entries :=
    hperm.mem_iff.2 (by simp [rootFileFuncs])
  have hns : ¬ skipped input (RootFilename, NewMainTF).1 := by
    intro h
    exact absurd h.1 (by decide)
  rw [hall _ hmain hns]
  simp [NewMainTF, Writer.Write, hw]

/-- Witness of C8: forcing the synthesis over the directory where `main.tf` was
edited by hand restores the preamble and the formatted body. -/
theorem InitRootModule_force_overwrites_witness :
    editedFS "mod/main.tf" = some "# edited by hand\n" ∧
    (InitRootModule Faults.none (rootFileFuncs sampleFuncs) sampleInput.Init "mod" 420 true
        editedFS).1 (filepathJoin "mod" RootFilename) =
      some (RootPreamble ++ (mainTFBody sampleInput.Init).format) :=
  ⟨by decide,
    (InitRootModule_force_overwrites sampleFuncs Faults.none (rootFileFuncs sampleFuncs)
      sampleInput.Init "mod" 420 editedFS (List.Perm.refl _) (by decide)).2
      (fun _ => rfl)⟩

/-- C9: when the input has no variable, `InitRootModule` leaves the path of
`variables.module.tf` as it was, whatever `force` is (absent before, absent
after); and when the input has a variable and `force` is true, a call that
returns no error leaves `variables.module.tf` present. -/
theorem InitRootModule_module_variables_file (fns : RenderFuncs) (faults : Faults)
    (entries : List (String × RenderFunc)) (input : RootModuleInputData)
    (modulePath : String) (filePerms : Nat) (force : Bool) (fs : FS) :
    (input.Variables.length = 0 →
      (InitRootModule faults entries input modulePath filePerms force fs).1
          (filepathJoin modulePath ModuleVarsFilename) =
        fs (filepathJoin modulePath ModuleVarsFilename)) ∧
    (input.Variables.length ≠ 0 → entries.Perm (rootFileFuncs fns) →
      (InitRootModule faults entries input modulePath filePerms true fs).2 = none →
      (InitRootModule faults entries input modulePath filePerms true fs).1
          (filepathJoin modulePath ModuleVarsFilename) ≠ none) := by
  refine ⟨?_, ?_⟩
  · intro hzero
    apply InitRootModule_untouched
    intro e _ hns heq
    exact hns ⟨filepathJoin_injective modulePath heq, hzero⟩
  · intro hvars hperm hok
    have hmem : (ModuleVarsFilename, fns.NewModuleVariablesTF) ∈ entries :=
      hperm.mem_iff.2 (by simp [rootFileFuncs])
    exact InitRootModule_success_exists faults entries input modulePath filePerms true fs hok
      _ hmem (fun h => hvars h.2)

/-- Witness of C9: with no variable the file stays absent under `force`; with one
variable it appears. -/
theorem InitRootModule_module_variables_file_witness :
    (InitRootModule Faults.none (rootFileFuncs sampleFuncs) sampleInput.Init "mod" 420 true
        emptyFS).1 (filepathJoin "mod" ModuleVarsFilename) =
      emptyFS (filepathJoin "mod" ModuleVarsFilename) ∧
    (InitRootModule Faults.none (rootFileFuncs sampleFuncs) sampleInputWithVariable.Init "mod"
        420 true emptyFS).1 (filepathJoin "mod" ModuleVarsFilename) ≠ none :=
  ⟨(InitRootModule_module_variables_file sampleFuncs Faults.none (rootFileFuncs sampleFuncs)
      sampleInput.Init "mod" 420 true emptyFS).1 (by decide),
    (InitRootModule_module_variables_file sampleFuncs Faults.none (rootFileFuncs sampleFuncs)
      sampleInputWithVariable.Init "mod" 420 true emptyFS).2 (by decide) (List.Perm.refl _)
      (by decide)⟩

/-- Counterexample to C10: the write of the preamble of `main.tf` fails, and the
call returns no error, leaves `main.tf` with the body alone and goes on to
create `variables.tf`. -/
theorem InitRootModule_ignores_preamble_failure :
    preambleFault.write (filepathJoin "mod" RootFilename) 0 = some "disk quota exceeded" ∧
    (InitRootModule preambleFault (rootFileFuncs sampleFuncs) sampleInput.Init "mod" 420 true
        emptyFS).2 = none ∧
    (InitRootModule preambleFault (rootFileFuncs sampleFuncs) sampleInput.Init "mod" 420 true
        emptyFS).1 (filepathJoin "mod" RootFilename) =
      some (mainTFBody sampleInput.Init).format ∧
    emptyFS (filepathJoin "mod" VarsFilename) = none ∧
    (InitRootModule preambleFault (rootFileFuncs sampleFuncs) sampleInput.Init "mod" 420 true
        emptyFS).1 (filepathJoin "mod" VarsFilename) ≠ none := by
  refine ⟨?_, ?_, ?_, ?_, ?_⟩ <;> decide

/-- C10, amended: if the files before it were processed without error and a
file is neither passed over nor skipped as existing, then a failure to create
it, to change its permissions, or of its function to write its content makes
`InitRootModule` return a non-nil error at once: the result is the one of the
visit cut after that file, so no further file is processed. `NewMainTF` returns
the error of its second write, the body; the outcome of its first write, the
preamble, is not returned. -/
theorem InitRootModule_stops_at_first_error (faults : Faults)
    (pre post : List (String × RenderFunc)) (filename : String) (fn : RenderFunc)
    (input : RootModuleInputData) (modulePath : String) (filePerms : Nat) (force : Bool)
    (fs fs₁ : FS)
    (hpre : InitRootModule faults pre input modulePath filePerms force fs = (fs₁, none))
    (hgen : ¬ skipped input filename)
    (hwrite : ¬ (fileExists fs₁ (filepathJoin modulePath filename) = true ∧ force = false))
    (hfail : faults.create (filepathJoin modulePath filename) ≠ none ∨
      faults.chmod (filepathJoin modulePath filename) filePerms ≠ none ∨
      (fn { data := "", calls := 0,
            fault := faults.write (filepathJoin modulePath filename) } input).2 ≠ none) :
    (InitRootModule faults (pre ++ (filename, fn) :: post) input modulePath filePerms force
        fs).2 ≠ none ∧
    InitRootModule faults (pre ++ (filename, fn) :: post) input modulePath filePerms force fs =
      InitRootModule faults (pre ++ [(filename, fn)]) input modulePath filePerms force fs ∧
    (∀ (w : Writer) (d : RootModuleInputData),
      (NewMainTF w d).2 = w.fault (w.calls + 1)) := by
  have step : ∀ rest : List (String × RenderFunc),
      ∃ fs₂ err, InitRootModule faults ((filename, fn) :: rest) input modulePath filePerms
        force fs₁ = (fs₂, some err) ∧
        InitRootModule faults [(filename, fn)] input modulePath filePerms force fs₁ =
          (fs₂, some err) := by
    intro rest
    have hskip : ¬ (filename = ModuleVarsFilename ∧ input.Variables.length = 0) := hgen
    have hfound : ¬ ((fileExists fs₁ (filepathJoin modulePath filename) && !force) = true) := by
      intro h
      apply hwrite
      simpa using h
    simp only [InitRootModule, hskip, hfound, if_false]
    cases hc : faults.create (filepathJoin modulePath filename) with
    | some err => exact ⟨_, err, rfl, rfl⟩
    | none =>
      cases hm : faults.chmod (filepathJoin modulePath filename) filePerms with
      | some err => exact ⟨_, err, rfl, rfl⟩
      | none =>
        rcases hr : (fn ⟨"", 0, faults.write (filepathJoin modulePath filename)⟩ input).2
          with _ | err
        · simp [hc, hm, hr] at hfail
        · simp only [hr]
          exact ⟨_, err, rfl, rfl⟩
  refine ⟨?_, ?_, ?_⟩
  · obtain ⟨fs₂, err, h, _⟩ := step post
    rw [InitRootModule_append, hpre]
    simp [h]
  · obtain ⟨fs₂, err, h, h'⟩ := step post
    rw [InitRootModule_append, InitRootModule_append, hpre]
    simp only [h, h']
  · intro w d
    simp only [NewMainTF, Writer.Write]
    cases w.fault w.calls <;> cases h : w.fault (w.calls + 1) <;> simp [h]

/-- Witness of the amended C10: `Chmod` fails on `main.tf`, the first file of the
visit; the call returns that error and `variables.tf` is not created. -/
theorem InitRootModule_stops_at_first_error_witness :
    (InitRootModule chmodFault
        ([] ++ (RootFilename, NewMainTF) :: (rootFileFuncs sampleFuncs).tail)
        sampleInput.Init "mod" 420 true emptyFS).2 ≠ none ∧
    InitRootModule chmodFault
        ([] ++ (RootFilename, NewMainTF) :: (rootFileFuncs sampleFuncs).tail)
        sampleInput.Init "mod" 420 true emptyFS =
      InitRootModule chmodFault ([] ++ [(RootFilename, NewMainTF)]) sampleInput.Init "mod" 420
        true emptyFS :=
  have h := InitRootModule_stops_at_first_error chmodFault []
    (rootFileFuncs sampleFuncs).tail RootFilename NewMainTF sampleInput.Init "mod" 420 true
    emptyFS emptyFS rfl (by decide) (by decide) (Or.inr (Or.inl (by decide)))
  ⟨h.1, h.2.1⟩

end Tftmpl

namespace Tftmpl

/-- Setting an attribute no item of the body is named after appends it. -/
theorem setAttribute_fresh (b : Body) (name : String) (e : Expr)
    (h : ∀ it ∈ b, it.isAttribute name = false) :
    Body.setAttribute b name e = b ++ [Item.attribute name e] := by
  unfold Body.setAttribute
  have hany : b.any (Item.isAttribute name) = false := by
    rw [List.any_eq_false]
    intro it hit
    simp [h it hit]
  simp [hany]

/-- Setting attributes of distinct names, none of them in the body yet, appends
them in order. -/
theorem foldl_setAttribute_fresh (f : String → Expr) (names : List String) (b : Body)
    (hn : names.Nodup) (h : ∀ n ∈ names, ∀ it ∈ b, it.isAttribute n = false) :
    names.foldl (fun mb n => Body.setAttribute mb n (f n)) b =
      b ++ names.map (fun n => Item.attribute n (f n)) := by
  induction names generalizing b with
  | nil => simp
  | cons n rest ih =>
    have hnd := List.nodup_cons.1 hn
    rw [List.foldl_cons, setAttribute_fresh b n (f n) (h n (List.mem_cons_self _ _))]
    rw [ih _ hnd.2]
    · simp
    · intro m hm it hit
      rcases List.mem_append.1 hit with hb | hlast
      · exact h m (List.mem_cons_of_mem _ hm) it hb
      · rw [List.mem_singleton] at hlast
        subst hlast
        have hne : n ≠ m := fun heq => hnd.1 (heq ▸ hm)
        simp [Item.isAttribute, hne]

/-- A loop that passes over some elements is the loop over the others. -/
theorem foldl_skip {α β : Type} (g : β → α → β) (skip : α → Bool) (l : List α) (init : β) :
    l.foldl (fun acc a => if skip a = true then acc else g acc a) init =
      (l.filter (fun a => !skip a)).foldl g init := by
  induction l generalizing init with
  | nil => rfl
  | cons a rest ih =>
    by_cases hs : skip a = true
    · simp [List.foldl_cons, hs, ih]
    · simp [List.foldl_cons, hs, ih]

/-- The sorted names of a map are its names, in non-decreasing order. -/
theorem sortStrings_spec (l : List String) :
    (sortStrings l).Perm l ∧ (sortStrings l).Pairwise (fun a b => a ≤ b) :=
  ⟨sortSlice_perm id l, sortSlice_sorted id l⟩

/-- The sorted names of a map with distinct names are in ascending order. -/
theorem sortStrings_strict (l : List String) (h : l.Nodup) :
    (sortStrings l).Nodup ∧ (sortStrings l).Pairwise (fun a b => a < b) := by
  obtain ⟨hp, hs⟩ := sortStrings_spec l
  have hnd : (sortStrings l).Nodup := hp.nodup_iff.2 h
  exact ⟨hnd, List.Sorted.lt_of_le hs hnd⟩

/-- The block `appendRootProviderBlocks` emits for one provider. -/
theorem providerBlockBody_eq (p : NamedBlock) (h : (GoMap.keys p.Block).Nodup) :
    providerBlockBody p =
      (p.SortedAttributes.filter (fun a => a ≠ "alias")).map
        (fun a => Item.attribute a (Expr.traversal ["var", p.Name, a])) := by
  unfold providerBlockBody Body.SetAttributeTraversal
  have hskip := foldl_skip
    (fun (acc : Body) (a : String) =>
      Body.setAttribute acc a (Expr.traversal ["var", p.Name, a]))
    (fun a => decide (a = "alias")) p.SortedAttributes []
  simp only [decide_eq_true_eq] at hskip
  rw [hskip]
  have hnd : (p.SortedAttributes.filter (fun a => !decide (a = "alias"))).Nodup :=
    (sortStrings_strict _ h).1.filter _
  rw [foldl_setAttribute_fresh (fun a => Expr.traversal ["var", p.Name, a]) _ [] hnd
    (by simp)]
  simp

/-- The loop of `appendRootProviderBlocks` puts a newline between the blocks
and none after the last. -/
theorem appendRootProviderBlocksFrom_eq (lastIdx : Int) (i : Nat) (ps : List NamedBlock)
    (body : Body) (h : lastIdx = (i : Int) + (ps.length : Int) - 1) :
    appendRootProviderBlocksFrom lastIdx i ps body =
      body ++ List.intersperse Item.newline
        (ps.map (fun p => Item.block "provider" [p.Name] (providerBlockBody p))) := by
  induction ps generalizing i body with
  | nil => simp [appendRootProviderBlocksFrom]
  | cons p rest ih =>
    cases rest with
    | nil =>
      have hi : (i : Int) = lastIdx := by
        simp at h
        omega
      simp [appendRootProviderBlocksFrom, hi, Body.AppendNewBlock]
    | cons q rest =>
      have hi : (i : Int) ≠ lastIdx := by
        simp at h
        omega
      have hnext : lastIdx = ((i + 1 : Nat) : Int) + ((q :: rest).length : Int) - 1 := by
        simp at h ⊢
        omega
      rw [appendRootProviderBlocksFrom]
      simp only [hi, ne_eq, not_false_eq_true, if_true]
      rw [ih (i + 1) _ hnext]
      simp [Body.AppendNewBlock, Body.AppendNewline]

/-- C11: the identifier of a service is its name when tag and datacenter are
empty, `tag.name` when only the tag is set, `name@datacenter` when only the
datacenter is set and `tag.name@datacenter` when both are; the services `db` and
`db` tagged `v1` get the identifiers `db` and `v1.db`. -/
theorem TemplateServiceID_cases (s : Service) :
    s.TemplateServiceID =
      (if s.Tag = "" ∧ s.Datacenter = "" then s.Name
       else if s.Datacenter = "" then s.Tag ++ "." ++ s.Name
       else if s.Tag = "" then s.Name ++ "@" ++ s.Datacenter
       else s.Tag ++ "." ++ s.Name ++ "@" ++ s.Datacenter) ∧
    dbService.TemplateServiceID = "db" ∧ dbServiceV1.TemplateServiceID = "v1.db" := by
  refine ⟨?_, by decide, by decide⟩
  unfold Service.TemplateServiceID
  by_cases ht : s.Tag = "" <;> by_cases hd : s.Datacenter = "" <;> simp [ht, hd]

/-- C12: after `Init` the internal provider blocks are the blocks converted one
for one from `Providers`, permuted into non-decreasing order of name, and the
internal services list is `Services` permuted into non-decreasing order of
name. -/
theorem Init_sorts_providers_and_services (d : RootModuleInputData) :
    d.Init.providers.Perm (d.Providers.map newNamedBlock) ∧
    d.Init.providers.Pairwise (fun a b => a.Name ≤ b.Name) ∧
    d.Init.services.Perm d.Services ∧
    d.Init.services.Pairwise (fun a b => a.Name ≤ b.Name) := by
  obtain ⟨_, hp, hs, _⟩ := Init_fields d
  rw [hp, hs]
  exact ⟨sortSlice_perm (fun b : NamedBlock => b.Name) _,
    sortSlice_sorted (fun b : NamedBlock => b.Name) _,
    sortSlice_perm (fun s : Service => s.Name) _,
    sortSlice_sorted (fun s : Service => s.Name) _⟩

/-- C14: `appendRootProviderBlocks` appends one block per entry, of type
`provider` and labelled with the name of the provider, with a newline between
two blocks; each block holds exactly one argument for every attribute of the
provider other than `alias`, in ascending order of attribute name, set to the
reference `var.<providerName>.<attribute>`; no argument is named `alias`. The
attribute names of a provider are distinct, as the keys of a Go map are. -/
theorem appendRootProviderBlocks_emits (body : Body) (providers : List NamedBlock)
    (hkeys : ∀ p ∈ providers, (GoMap.keys p.Block).Nodup) :
    appendRootProviderBlocks body providers =
      body ++ List.intersperse Item.newline
        (providers.map (fun p =>
          Item.block "provider" [p.Name]
            ((p.SortedAttributes.filter (fun a => a ≠ "alias")).map
              (fun a => Item.attribute a (Expr.traversal ["var", p.Name, a]))))) ∧
    (∀ p ∈ providers,
      p.SortedAttributes.Perm (GoMap.keys p.Block) ∧
      p.SortedAttributes.Pairwise (fun a b => a < b) ∧
      "alias" ∉ p.SortedAttributes.filter (fun a => a ≠ "alias")) := by
  refine ⟨?_, ?_⟩
  · unfold appendRootProviderBlocks
    rw [appendRootProviderBlocksFrom_eq _ 0 providers body (by simp)]
    congr 2
    apply List.map_congr_left
    intro p hp
    rw [providerBlockBody_eq p (hkeys p hp)]
  · intro p hp
    refine ⟨(sortStrings_spec _).1, (sortStrings_strict _ (hkeys p hp)).2, ?_⟩
    simp

/-- Witness of C14: a provider `aws` with the attributes `region`, `alias` and
`profile` gets one block with `profile` and `region`. -/
theorem appendRootProviderBlocks_emits_witness :
    (GoMap.keys awsBlock.Block).Nodup ∧
    appendRootProviderBlocks [] [awsBlock] =
      [Item.block "provider" ["aws"]
        [Item.attribute "profile" (Expr.traversal ["var", "aws", "profile"]),
         Item.attribute "region" (Expr.traversal ["var", "aws", "region"])]] :=
  ⟨by decide, by
    have h := (appendRootProviderBlocks_emits [] [awsBlock] (by decide)).1
    rw [h]
    rfl⟩

/-- A string has length zero exactly when it is the empty string. -/
theorem length_pos_iff (s : String) : s.length > 0 ↔ s ≠ "" := by
  constructor
  · intro h heq
    subst heq
    simp at h
  · intro h
    apply Nat.pos_of_ne_zero
    intro h0
    apply h
    apply String.ext
    exact List.length_eq_zero.1 h0

/-- The block `appendRootTerraformBlock` appends: the version constraint, then
the required providers when there is provider info, then the backend when there
is one. -/
theorem appendRootTerraformBlock_eq (body : Body) (backend : Option NamedBlock)
    (providerInfo : GoMap Value) :
    ∃ requiredProviders backendBody : Body,
      appendRootTerraformBlock body backend providerInfo =
        body ++ [Item.block "terraform" []
          ([Item.attribute "required_version"
              (Expr.value (Value.string TerraformRequiredVersion))] ++
            (if providerInfo.length ≠ 0 then
              [Item.block "required_providers" [] requiredProviders] else []) ++
            (match backend with
             | none => []
             | some b => [Item.block "backend" [b.Name] backendBody]))] := by
  refine ⟨(sortedKeys providerInfo).foldl
      (fun rb pName =>
        match providerInfo.lookup pName with
        | some info => Body.SetAttributeValue rb pName (HCL2ValueFromConfigValue info)
        | none => rb)
      [],
    (match backend with
     | none => []
     | some b =>
       b.SortedAttributes.foldl
         (fun bb attr =>
           Body.SetAttributeValue bb attr ((b.Block.lookup attr).getD Value.nil))
         []), ?_⟩
  unfold appendRootTerraformBlock
  cases backend with
  | none =>
    by_cases hp : providerInfo.length ≠ 0
    · simp [hp, Body.SetAttributeValue, Body.setAttribute, Body.AppendNewBlock]
    · simp [hp, Body.SetAttributeValue, Body.setAttribute, Body.AppendNewBlock]
  | some b =>
    by_cases hp : providerInfo.length ≠ 0
    · simp [hp, Body.SetAttributeValue, Body.setAttribute, Body.AppendNewBlock]
    · simp [hp, Body.SetAttributeValue, Body.setAttribute, Body.AppendNewBlock]

/-- The items `appendRootModuleBlock` appends when the names of the variables
are distinct and none is `source`, `version` or `services`. -/
theorem appendRootModuleBlock_eq (body : Body) (task : Task) (varNames : List String)
    (hn : varNames.Nodup)
    (hr : ∀ n ∈ varNames, n ≠ "source" ∧ n ≠ "version" ∧ n ≠ "services") :
    appendRootModuleBlock body task varNames =
      body ++
        (if task.Description ≠ "" then
          [Item.tokens ("# " ++ task.Description), Item.newline] else []) ++
        [Item.block "module" [task.Name]
          ([Item.attribute "source" (Expr.value (Value.string task.Source))] ++
            (if task.Version ≠ "" then
              [Item.attribute "version" (Expr.value (Value.string task.Version))] else []) ++
            [Item.attribute "services" (Expr.traversal ["var", "services"])] ++
            (if varNames = [] then []
             else Item.newline ::
               varNames.map (fun n => Item.attribute n (Expr.traversal ["var", n]))))] := by
  have hbody :
      (if task.Description ≠ "" then appendComment body task.Description else body) =
        body ++ (if task.Description ≠ "" then
          [Item.tokens ("# " ++ task.Description), Item.newline] else []) := by
    by_cases hd : task.Description = ""
    · simp [hd]
    · simp [hd, appendComment, Body.AppendUnstructuredTokens, Body.AppendNewline]
  have hbase : ∀ base : Body,
      (∀ n ∈ varNames, ∀ it ∈ base, it.isAttribute n = false) →
      varNames.foldl (fun mb name => Body.SetAttributeTraversal mb name ["var", name]) base =
        base ++ varNames.map (fun n => Item.attribute n (Expr.traversal ["var", n])) :=
    fun base hfresh =>
      foldl_setAttribute_fresh (fun n => Expr.traversal ["var", n]) varNames base hn hfresh
  unfold appendRootModuleBlock
  simp only [hbody, Body.AppendNewBlock]
  congr 2
  by_cases hv : task.Version = ""
  · have hlen : ¬ task.Version.length > 0 := fun h => (length_pos_iff _).1 h hv
    by_cases he : varNames = []
    · subst he
      simp [hv, Body.SetAttributeValue, Body.SetAttributeTraversal, Body.setAttribute,
        Item.isAttribute]
    · have hl : varNames.length ≠ 0 := fun h => he (List.length_eq_zero.1 h)
      simp only [hlen, hl, hv, he, if_false, if_true, ne_eq, not_true_eq_false,
        not_false_eq_true]
      rw [hbase]
      · simp [Body.SetAttributeValue, Body.SetAttributeTraversal, Body.setAttribute,
          Item.isAttribute, Body.AppendNewline]
      · intro n hmem it hit
        obtain ⟨h1, _, h3⟩ := hr n hmem
        simp [Body.SetAttributeValue, Body.SetAttributeTraversal, Body.setAttribute,
          Item.isAttribute, Body.AppendNewline] at hit
        rcases hit with rfl | rfl | rfl
        · simpa [Item.isAttribute] using fun h => h1 h.symm
        · simpa [Item.isAttribute] using fun h => h3 h.symm
        · rfl
  · have hlen : task.Version.length > 0 := (length_pos_iff _).2 hv
    by_cases he : varNames = []
    · subst he
      simp [hv, hlen, Body.SetAttributeValue, Body.SetAttributeTraversal,
        Body.setAttribute, Item.isAttribute]
    · have hl : varNames.length ≠ 0 := fun h => he (List.length_eq_zero.1 h)
      simp only [hlen, hl, hv, he, if_false, if_true, ne_eq, not_true_eq_false,
        not_false_eq_true]
      rw [hbase]
      · simp [Body.SetAttributeValue, Body.SetAttributeTraversal, Body.setAttribute,
          Item.isAttribute, Body.AppendNewline]
      · intro n hmem it hit
        obtain ⟨h1, h2, h3⟩ := hr n hmem
        simp [Body.SetAttributeValue, Body.SetAttributeTraversal, Body.setAttribute,
          Item.isAttribute, Body.AppendNewline] at hit
        rcases hit with rfl | rfl | rfl | rfl
        · simpa [Item.isAttribute] using fun h => h1 h.symm
        · simpa [Item.isAttribute] using fun h => h2 h.symm
        · simpa [Item.isAttribute] using fun h => h3 h.symm
        · rfl

/-- The items `appendRootModuleBlock` appends come after the body it is
given. -/
theorem appendRootModuleBlock_prefix (body : Body) (task : Task) (varNames : List String) :
    ∃ tail : Body, appendRootModuleBlock body task varNames = body ++ tail := by
  unfold appendRootModuleBlock
  by_cases hd : task.Description = ""
  · simp only [hd, ne_eq, not_true_eq_false, if_false, Body.AppendNewBlock]
    exact ⟨_, rfl⟩
  · simp only [hd, ne_eq, not_false_eq_true, if_true, Body.AppendNewBlock, appendComment,
      Body.AppendUnstructuredTokens, Body.AppendNewline, List.append_assoc]
    exact ⟨_, rfl⟩

/-- The body `NewMainTF` builds starts with the terraform block. -/
theorem mainTFBody_starts_with_terraform (input : RootModuleInputData) :
    ∃ requiredProviders backendBody rest : Body,
      mainTFBody input =
        Item.block "terraform" []
          ([Item.attribute "required_version"
              (Expr.value (Value.string TerraformRequiredVersion))] ++
            (if input.ProviderInfo.length ≠ 0 then
              [Item.block "required_providers" [] requiredProviders] else []) ++
            (match input.backend with
             | none => []
             | some b => [Item.block "backend" [b.Name] backendBody])) :: rest := by
  obtain ⟨rp, bb, htf⟩ := appendRootTerraformBlock_eq [] input.backend input.ProviderInfo
  unfold mainTFBody appendRootProviderBlocks
  simp only [htf]
  rw [appendRootProviderBlocksFrom_eq _ 0 input.providers _ (by simp)]
  obtain ⟨tail, ht⟩ := appendRootModuleBlock_prefix
    (Body.AppendNewline
      (Body.AppendNewline
          ([] ++ [Item.block "terraform" []
            ([Item.attribute "required_version"
                (Expr.value (Value.string TerraformRequiredVersion))] ++
              (if input.ProviderInfo.length ≠ 0 then
                [Item.block "required_providers" [] rp] else []) ++
              (match input.backend with
               | none => []
               | some b => [Item.block "backend" [b.Name] bb]))]) ++
        List.intersperse Item.newline
          (input.providers.map
            (fun p => Item.block "provider" [p.Name] (providerBlockBody p)))))
    input.Task (Variables.Keys input.Variables)
  rw [ht]
  simp only [Body.AppendNewline, List.nil_append, List.append_assoc, List.singleton_append,
    List.cons_append]
  exact ⟨rp, bb, _, rfl⟩

/-- Counterexample to C13: with a user variable named `source`, the reference
`source = var.source` takes the place of the source of the task in the module
block and no reference follows `services = var.services`. -/
theorem NewMainTF_variable_named_source_replaces_source :
    sampleInputWithSourceVariable.Init.Task.Source = "example/module" ∧
    Variables.Keys sampleInputWithSourceVariable.Init.Variables = ["source"] ∧
    ((mainTFBody sampleInputWithSourceVariable.Init).blocksOf "module").map
        (fun lb => (lb.1, Body.attributes lb.2)) =
      [(["db_task"],
        [("source", Expr.traversal ["var", "source"]),
         ("services", Expr.traversal ["var", "services"])])] := by
  refine ⟨?_, ?_, ?_⟩ <;> decide

/-- C13, amended: for every input whose variable names are none of `source`,
`version` and `services` (the names being distinct, as the keys of a Go map
are), the body `NewMainTF` renders after the preamble consists, in this order,
of: the terraform block (the version constraint "~>0.13.0", then the required
providers when there is provider info, then the backend when there is one), a
newline, the provider blocks in the order of the internal list (sorted by name
on an initialised input) with a newline between two of them, a newline, a
comment with the description of the task and a newline when the description is
not empty, then the module block labelled with the name of the task, holding
the source, the version only when it is not empty, `services = var.services`
and, after a newline, one reference `name = var.name` for each user variable
exactly once in ascending order of name; with no variable the module block ends
with `services = var.services`. -/
theorem NewMainTF_body_layout (input : RootModuleInputData)
    (hn : (GoMap.keys input.Variables).Nodup)
    (hr : ∀ n ∈ GoMap.keys input.Variables,
      n ≠ "source" ∧ n ≠ "version" ∧ n ≠ "services") :
    (∃ requiredProviders backendBody : Body,
      mainTFBody input =
        [Item.block "terraform" []
          ([Item.attribute "required_version" (Expr.value (Value.string "~>0.13.0"))] ++
            (if input.ProviderInfo.length ≠ 0 then
              [Item.block "required_providers" [] requiredProviders] else []) ++
            (match input.backend with
             | none => []
             | some b => [Item.block "backend" [b.Name] backendBody])),
         Item.newline] ++
        List.intersperse Item.newline
          (input.providers.map
            (fun p => Item.block "provider" [p.Name] (providerBlockBody p))) ++
        [Item.newline] ++
        (if input.Task.Description ≠ "" then
          [Item.tokens ("# " ++ input.Task.Description), Item.newline] else []) ++
        [Item.block "module" [input.Task.Name]
          ([Item.attribute "source" (Expr.value (Value.string input.Task.Source))] ++
            (if input.Task.Version ≠ "" then
              [Item.attribute "version" (Expr.value (Value.string input.Task.Version))]
             else []) ++
            [Item.attribute "services" (Expr.traversal ["var", "services"])] ++
            (if input.Variables = [] then []
             else Item.newline ::
               (Variables.Keys input.Variables).map
                 (fun n => Item.attribute n (Expr.traversal ["var", n]))))]) ∧
    (Variables.Keys input.Variables).Perm (GoMap.keys input.Variables) ∧
    (Variables.Keys input.Variables).Pairwise (fun a b => a < b) ∧
    (NewMainTF freshWriter input).1.data = RootPreamble ++ (mainTFBody input).format ∧
    (∀ d : RootModuleInputData, input = d.Init →
      input.providers.Pairwise (fun a b => a.Name ≤ b.Name)) := by
  have hperm : (Variables.Keys input.Variables).Perm (GoMap.keys input.Variables) :=
    (sortStrings_spec _).1
  have hstrict := sortStrings_strict _ hn
  have hempty : Variables.Keys input.Variables = [] ↔ input.Variables = [] := by
    constructor
    · intro h
      have hl := hperm.length_eq
      rw [h] at hl
      simpa [GoMap.keys] using hl.symm
    · intro h
      rw [h]
      rfl
  refine ⟨?_, hperm, hstrict.2, ?_, ?_⟩
  · obtain ⟨rp, bb, htf⟩ := appendRootTerraformBlock_eq [] input.backend input.ProviderInfo
    refine ⟨rp, bb, ?_⟩
    unfold mainTFBody
    simp only [htf]
    unfold appendRootProviderBlocks
    rw [appendRootProviderBlocksFrom_eq _ 0 input.providers _ (by simp)]
    rw [appendRootModuleBlock_eq _ input.Task (Variables.Keys input.Variables) hstrict.1
      (fun n hmem => hr n (hperm.mem_iff.1 hmem))]
    simp only [hempty]
    simp [Body.AppendNewline, TerraformRequiredVersion]
  · simp [NewMainTF, Writer.Write, freshWriter]
  · intro d hd
    rw [hd, (Init_fields d).2.1]
    exact sortSlice_sorted (fun b : NamedBlock => b.Name) _

/-- Witness of the amended C13 on an input with a description, a version and
the variables `zone` and `region`. -/
theorem NewMainTF_body_layout_witness :
    (GoMap.keys sampleInputWithTwoVariables.Init.Variables).Nodup ∧
    Variables.Keys sampleInputWithTwoVariables.Init.Variables = ["region", "zone"] ∧
    (NewMainTF freshWriter sampleInputWithTwoVariables.Init).1.data =
      RootPreamble ++ (mainTFBody sampleInputWithTwoVariables.Init).format :=
  ⟨by decide, by decide,
    (NewMainTF_body_layout sampleInputWithTwoVariables.Init (by decide) (by decide)).2.2.2.1⟩

/-- Counterexample to C15: an input that was initialised with a backend and is
then given a nil `Backend` keeps its internal backend block through the next
`Init`, and the terraform block still holds the backend sub-block. -/
theorem Init_nil_Backend_keeps_internal_backend :
    backendThenNil.Backend = none ∧
    backendThenNil.Init.Backend = some [] ∧
    ((mainTFBody backendThenNil.Init).blocksOf "terraform").map
        (fun lb => (lb.2.blocksOf "backend").map (fun bl => (bl.1, Body.attributes bl.2))) =
      [[(["consul"], [("path", Expr.value (Value.string "tf"))])]] := by
  refine ⟨?_, ?_, ?_⟩ <;> decide

/-- C15, amended: for every input whose `Backend` is nil and whose internal
backend block is nil, after `Init` the public `Backend` is an empty mapping and
the terraform block of the body `NewMainTF` renders holds the version
constraint, the required providers when there is provider info, and no backend
sub-block. -/
theorem Init_nil_Backend_renders_no_backend (d : RootModuleInputData)
    (hB : d.Backend = none) (hb : d.backend = none) :
    d.Init.Backend = some [] ∧
    ∃ (tfBody rest : Body),
      mainTFBody d.Init = Item.block "terraform" [] tfBody :: rest ∧
      tfBody.blocksOf "backend" = [] ∧
      ∀ labels inner, Item.block "backend" labels inner ∉ tfBody := by
  have hBackend : d.Init.Backend = some [] := by
    obtain ⟨B, P, PI, S, T, V, b, p, s⟩ := d
    simp only at hB
    subst hB
    simp [RootModuleInputData.Init]
  have hbackend : d.Init.backend = none := by
    rw [(Init_fields d).1, hB]
    exact hb
  have hinfo : d.Init.ProviderInfo = d.ProviderInfo := (Init_fields d).2.2.2.1
  refine ⟨hBackend, ?_⟩
  obtain ⟨rp, bb, rest, hmain⟩ := mainTFBody_starts_with_terraform d.Init
  rw [hbackend, hinfo] at hmain
  refine ⟨_, rest, hmain, ?_, ?_⟩
  · by_cases hp : d.ProviderInfo.length ≠ 0 <;> simp [hp, Body.blocksOf]
  · intro labels inner
    by_cases hp : d.ProviderInfo.length ≠ 0 <;> simp [hp]

/-- Witness of the amended C15 on the sample input, which has no backend. -/
theorem Init_nil_Backend_renders_no_backend_witness :
    sampleInput.Backend = none ∧ sampleInput.backend = none ∧
    sampleInput.Init.Backend = some [] :=
  ⟨by decide, by decide, (Init_nil_Backend_renders_no_backend sampleInput rfl rfl).1⟩

end Tftmpl

namespace Tftmpl

/-- A list is cut in one way only at the first occurrence of a separator. -/
theorem split_at_separator_unique {α : Type} (c : α) (l₁ l₂ r₁ r₂ : List α)
    (h₁ : c ∉ l₁) (h₂ : c ∉ l₂) (h : l₁ ++ c :: r₁ = l₂ ++ c :: r₂) :
    l₁ = l₂ ∧ r₁ = r₂ := by
  induction l₁ generalizing l₂ with
  | nil =>
    cases l₂ with
    | nil => simpa using h
    | cons x l₂ =>
      exfalso
      simp only [List.nil_append, List.cons_append, List.cons.injEq] at h
      exact h₂ (h.1 ▸ List.mem_cons_self _ _)
  | cons a l₁ ih =>
    cases l₂ with
    | nil =>
      exfalso
      simp only [List.nil_append, List.cons_append, List.cons.injEq] at h
      exact h₁ (h.1 ▸ List.mem_cons_self _ _)
    | cons x l₂ =>
      simp only [List.cons_append, List.cons.injEq] at h
      obtain ⟨hl, hr⟩ := ih l₂ (fun hc => h₁ (List.mem_cons_of_mem _ hc))
        (fun hc => h₂ (List.mem_cons_of_mem _ hc)) h.2
      exact ⟨by rw [h.1, hl], hr⟩

/-- The characters of the identifier: the name, after the tag and a dot when
there is a tag, followed by an at sign and the datacenter when there is a
datacenter. -/
theorem TemplateServiceID_toList (s : Service) :
    s.TemplateServiceID.toList =
      (if s.Tag = "" then s.Name.toList else s.Tag.toList ++ '.' :: s.Name.toList) ++
        (if s.Datacenter = "" then [] else '@' :: s.Datacenter.toList) := by
  unfold Service.TemplateServiceID
  by_cases ht : s.Tag = "" <;> by_cases hd : s.Datacenter = "" <;>
    simp [ht, hd, String.toList, String.data_append]

/-- An at sign is in neither the tag nor the name, so it is not in what
precedes the datacenter. -/
theorem at_not_mem_prefix (tag name : String) (hn : '@' ∉ name.toList)
    (ht : '@' ∉ tag.toList) :
    '@' ∉ (if tag = "" then name.toList else tag.toList ++ '.' :: name.toList) := by
  split_ifs
  · exact hn
  · intro hmem
    rcases List.mem_append.1 hmem with h1 | h1
    · exact ht h1
    · rcases List.mem_cons.1 h1 with h2 | h2
      · exact absurd h2 (by decide)
      · exact hn h2

/-- C21: for two services whose `Name` and `Tag` contain neither a dot nor an at
sign, equal identifiers imply the same `Name`, `Tag` and `Datacenter`; and the
identifier of a service does not change with its `Namespace` and
`Description`. -/
theorem TemplateServiceID_injective (s t : Service)
    (hs : '.' ∉ s.Name.toList ∧ '@' ∉ s.Name.toList ∧
      '.' ∉ s.Tag.toList ∧ '@' ∉ s.Tag.toList)
    (ht : '.' ∉ t.Name.toList ∧ '@' ∉ t.Name.toList ∧
      '.' ∉ t.Tag.toList ∧ '@' ∉ t.Tag.toList)
    (h : s.TemplateServiceID = t.TemplateServiceID) :
    (s.Name = t.Name ∧ s.Tag = t.Tag ∧ s.Datacenter = t.Datacenter) ∧
    (∀ ns desc : String,
      ({ s with Namespace := ns, Description := desc } : Service).TemplateServiceID =
        s.TemplateServiceID) := by
  refine ⟨?_, fun _ _ => rfl⟩
  obtain ⟨hsn, hsna, hst, hsta⟩ := hs
  obtain ⟨htn, htna, htt, htta⟩ := ht
  have hl := congrArg String.toList h
  rw [TemplateServiceID_toList, TemplateServiceID_toList] at hl
  have hps := at_not_mem_prefix s.Tag s.Name hsna hsta
  have hpt := at_not_mem_prefix t.Tag t.Name htna htta
  have hsplit : (if s.Tag = "" then s.Name.toList
        else s.Tag.toList ++ '.' :: s.Name.toList) =
      (if t.Tag = "" then t.Name.toList else t.Tag.toList ++ '.' :: t.Name.toList) ∧
      s.Datacenter = t.Datacenter := by
    by_cases hds : s.Datacenter = "" <;> by_cases hdt : t.Datacenter = ""
    · simp only [hds, hdt, if_true, List.append_nil] at hl
      exact ⟨hl, by rw [hds, hdt]⟩
    · exfalso
      simp only [hds, hdt, if_true, if_false, List.append_nil] at hl
      apply hps
      rw [hl]
      simp
    · exfalso
      simp only [hds, hdt, if_true, if_false, List.append_nil] at hl
      apply hpt
      rw [← hl]
      simp
    · simp only [hds, hdt, if_false] at hl
      obtain ⟨hp, hd⟩ := split_at_separator_unique _ _ _ _ _ hps hpt hl
      exact ⟨hp, String.ext hd⟩
  obtain ⟨hp, hdc⟩ := hsplit
  refine ⟨?_, ?_, hdc⟩ <;>
    by_cases hts : s.Tag = "" <;> by_cases htt' : t.Tag = ""
  · simp only [hts, htt', if_true] at hp
    exact String.ext hp
  · exfalso
    simp only [hts, htt', if_true, if_false] at hp
    apply hsn
    rw [hp]
    simp
  · exfalso
    simp only [hts, htt', if_true, if_false] at hp
    apply htn
    rw [← hp]
    simp
  · simp only [hts, htt', if_false] at hp
    exact String.ext (split_at_separator_unique _ _ _ _ _ hst htt hp).2
  · rw [hts, htt']
  · exfalso
    simp only [hts, htt', if_true, if_false] at hp
    apply hsn
    rw [hp]
    simp
  · exfalso
    simp only [hts, htt', if_true, if_false] at hp
    apply htn
    rw [← hp]
    simp
  · simp only [hts, htt', if_false] at hp
    exact String.ext (split_at_separator_unique _ _ _ _ _ hst htt hp).1

/-- Witness of C21: the service `db` tagged `v1` in `dc1` and the same service
with a namespace and a description have the same identifier, and the same name,
tag and datacenter. -/
theorem TemplateServiceID_injective_witness :
    dbServiceV1InDc1.TemplateServiceID = "v1.db@dc1" ∧
    dbServiceV1InDc1Described.TemplateServiceID = "v1.db@dc1" ∧
    dbServiceV1InDc1 ≠ dbServiceV1InDc1Described ∧
    (dbServiceV1InDc1.Name = dbServiceV1InDc1Described.Name ∧
      dbServiceV1InDc1.Tag = dbServiceV1InDc1Described.Tag ∧
      dbServiceV1InDc1.Datacenter = dbServiceV1InDc1Described.Datacenter) :=
  ⟨by decide, by decide, by decide,
    (TemplateServiceID_injective dbServiceV1InDc1 dbServiceV1InDc1Described (by decide)
      (by decide) (by decide)).1⟩

end Tftmpl
